import Mathlib

/-!
Verification development for the playwright-repl-extension command language.

Strings from the JavaScript source are modelled as `List Char` (`Str`); DOM
documents as trees of element/text nodes; browser primitives (click dispatch,
timers) as explicit state passing.  Each definition is translated from the
repository source file named in its doc comment.
-/

namespace PW

/-- JavaScript strings are modelled as lists of characters. -/
abbrev Str := List Char

/-- Shorthand turning a Lean string literal into the `List Char` model. -/
def S (s : String) : Str := s.data

/-- The single-quote character (used as a quote delimiter by the tokenizer). -/
def sqChar : Char := Char.ofNat 39

/-- Whitespace for line trimming: space and tab, the characters relevant to
single-line commands (models JavaScript `String.prototype.trim` on them). -/
def isWsChar (c : Char) : Bool := c = ' ' || c = '\t'

/-- Model of JavaScript `raw.trim()`: drop leading and trailing whitespace. -/
def trim (s : Str) : Str :=
  ((s.dropWhile isWsChar).reverse.dropWhile isWsChar).reverse

/-- Model of JavaScript `toLowerCase` on the command alphabet. -/
def toLow (s : Str) : Str := s.map Char.toLower

/-- Boolean test: `pre` is an initial segment of `s`. -/
def startsWithB : Str → Str → Bool
  | [], _ => true
  | _ :: _, [] => false
  | a :: as, b :: bs => a = b && startsWithB as bs

/-- Model of JavaScript `hay.includes(needle)`: substring containment. -/
def containsSub : Str → Str → Bool
  | hay, needle =>
    if startsWithB needle hay then true
    else match hay with
      | [] => false
      | _ :: t => containsSub t needle

/-! ## Tokenizer (src/lib/converter.js `tokenize`, src/unnamed/part_004 `parseCommand`)

Both files contain the identical character scan: outside a quote, space/tab
ends the current token and a double or single quote character opens a quote; inside a quote only the
matching quote character closes the token.  The scan is a fold over the
trimmed line with state `(tokens, current, inQuote, quoteChar)`. -/

structure TokState where
  tokens : List Str
  current : Str
  inQuote : Bool
  quoteChar : Char
deriving Repr, DecidableEq

def initTokState : TokState := ⟨[], [], false, ' '⟩

/-- One character of the scan loop in `tokenize` / `parseCommand`. -/
def tokStep (s : TokState) (ch : Char) : TokState :=
  if s.inQuote then
    if ch = s.quoteChar then
      { s with inQuote := false, tokens := s.tokens ++ [s.current], current := [] }
    else { s with current := s.current ++ [ch] }
  else if ch = '"' ∨ ch = sqChar then
    { s with inQuote := true, quoteChar := ch }
  else if ch = ' ' ∨ ch = '\t' then
    if s.current ≠ [] then { s with tokens := s.tokens ++ [s.current], current := [] }
    else s
  else { s with current := s.current ++ [ch] }

/-- The `if (current) tokens.push(current)` epilogue of the scan. -/
def tokFinish (s : TokState) : List Str :=
  if s.current ≠ [] then s.tokens ++ [s.current] else s.tokens

/-- src/lib/converter.js lines 5-23: trim, return `[]` for blank lines and
lines starting with `#`, otherwise run the character scan. -/
def tokenize (raw : Str) : List Str :=
  let t := trim raw
  if t = [] then []
  else if t.head? = some '#' then []
  else tokFinish (t.foldl tokStep initTokState)

structure ParsedCommand where
  command : Str
  args : List Str
deriving Repr, DecidableEq

/-- src/unnamed/part_004 `parseCommand`: same trim/comment guard and scan as
`tokenize`; `none` when no tokens result, otherwise the first token
lowercased plus the remaining tokens. -/
def parseCommand (raw : Str) : Option ParsedCommand :=
  let t := trim raw
  if t = [] then none
  else if t.head? = some '#' then none
  else
    match tokFinish (t.foldl tokStep initTokState) with
    | [] => none
    | c :: rest => some ⟨toLow c, rest⟩

/-! ## Command dispatch (src/background.js lines 1449-1500 `handleCommand`) -/

inductive CommandKind where
  | help | goto | snapshot | screenshot | eval | click | fill | selectK | checkK
  | uncheckK | hover | dblclick | press | goBack | goForward | reload
  | verifyText | verifyNoText | verifyElem | verifyNoElem | verifyUrl
  | verifyTitle | unknown
deriving Repr, DecidableEq

/-- The alias-resolving dispatch of `handleCommand`: `help` is handled before
the switch; each `case` label maps to the command kind whose handler it
invokes; anything else is `unknown`. -/
def dispatchKind (c : Str) : CommandKind :=
  if c = S "help" then .help
  else if c = S "goto" ∨ c = S "open" then .goto
  else if c = S "snapshot" ∨ c = S "s" then .snapshot
  else if c = S "screenshot" then .screenshot
  else if c = S "eval" then .eval
  else if c = S "click" ∨ c = S "c" then .click
  else if c = S "fill" ∨ c = S "f" then .fill
  else if c = S "select" then .selectK
  else if c = S "check" then .checkK
  else if c = S "uncheck" then .uncheckK
  else if c = S "hover" then .hover
  else if c = S "dblclick" then .dblclick
  else if c = S "press" ∨ c = S "p" then .press
  else if c = S "go-back" ∨ c = S "back" then .goBack
  else if c = S "go-forward" ∨ c = S "forward" then .goForward
  else if c = S "reload" then .reload
  else if c = S "verify-text" then .verifyText
  else if c = S "verify-no-text" then .verifyNoText
  else if c = S "verify-element" then .verifyElem
  else if c = S "verify-no-element" then .verifyNoElem
  else if c = S "verify-url" then .verifyUrl
  else if c = S "verify-title" then .verifyTitle
  else .unknown

/-! ## DOM model

A page is modelled by its preorder traversal: every node is recorded together
with its tree path (the child indices from the root), and list order is
document order.  `document.createTreeWalker(document.body, SHOW_ELEMENT)`
therefore enumerates exactly the element entries in list order, and
`querySelectorAll` is a filter.  Attributes are an association list; an absent
attribute models `getAttribute` returning `null`. -/

inductive DNode where
  | elem (path : List Nat) (tag : Str) (attrs : List (Str × Str))
  | textN (path : List Nat) (s : Str)
deriving Repr, DecidableEq

abbrev Doc := List DNode

/-- An element handle: its document path, tag name (as `el.tagName` reports
it) and attributes. -/
structure EInfo where
  path : List Nat
  tag : Str
  attrs : List (Str × Str)
deriving Repr, DecidableEq

/-- All element nodes in document order (the tree walker of
`buildClickElementJS` / `clickElementByRef`). -/
def docElems (doc : Doc) : List EInfo :=
  doc.filterMap (fun n => match n with
    | .elem p t a => some ⟨p, t, a⟩
    | .textN _ _ => none)

/-- `el.getAttribute(name)`. -/
def getAttr (e : EInfo) (name : Str) : Option Str :=
  (e.attrs.find? (fun a => a.1 = name)).map (fun a => a.2)

/-- `el.textContent`: concatenation, in document order, of the text nodes
strictly below the element. -/
def textContent (doc : Doc) (e : EInfo) : Str :=
  (doc.filterMap (fun n => match n with
    | .textN p s => if e.path.isPrefixOf p && p ≠ e.path then some s else none
    | .elem _ _ _ => none)).flatten

/-- `el.children.length`: the number of element nodes one level below. -/
def childElemCount (doc : Doc) (e : EInfo) : Nat :=
  (docElems doc).countP
    (fun f => f.path.length = e.path.length + 1 && e.path.isPrefixOf f.path)

/-- `root.querySelectorAll(...)` base list for an element root: all element
descendants, in document order. -/
def elemsUnder (doc : Doc) (c : EInfo) : List EInfo :=
  (docElems doc).filter (fun f => c.path.isPrefixOf f.path && f.path ≠ c.path)

/-- `document.getElementById`: first element carrying the id; the empty id
(`label.htmlFor` when no `for` attribute is present) matches nothing. -/
def byId (doc : Doc) (idv : Str) : Option EInfo :=
  if idv = [] then none
  else (docElems doc).find? (fun e => getAttr e (S "id") = some idv)

/-- The `matches` helper shared by the page-context locator functions
(src/unnamed/part_002): truthy, then trimmed lowercased equality against the
lowercased target. -/
def matchesStr (lower : Str) (s : Str) : Bool :=
  s ≠ [] && toLow (trim s) = lower

def matchesOpt (lower : Str) (o : Option Str) : Bool :=
  match o with
  | none => false
  | some s => matchesStr lower s

/-- Selector `li, tr, [role="listitem"], [role="row"], article, div`. -/
def containerSel (e : EInfo) : Bool :=
  toLow e.tag ∈ [S "li", S "tr", S "article", S "div"]
  || getAttr e (S "role") = some (S "listitem")
  || getAttr e (S "role") = some (S "row")

/-- Selector `button, a, [role="button"], input[type="submit"], input[type="button"]`. -/
def interactiveSel (e : EInfo) : Bool :=
  toLow e.tag ∈ [S "button", S "a"]
  || getAttr e (S "role") = some (S "button")
  || (toLow e.tag = S "input"
      && (getAttr e (S "type") = some (S "submit")
          || getAttr e (S "type") = some (S "button")))

def isInputOrTextarea (e : EInfo) : Bool :=
  toLow e.tag = S "input" || toLow e.tag = S "textarea"

def isLabelEl (e : EInfo) : Bool := toLow e.tag = S "label"

def hasAttrSel (name : Str) (e : EInfo) : Bool := (getAttr e name).isSome

/-- HTML labelable elements (semantics of the DOM `label.control` property). -/
def labelable (e : EInfo) : Bool :=
  (toLow e.tag ∈ [S "button", S "input", S "meter", S "output",
                  S "progress", S "select", S "textarea"])
  && !(toLow e.tag = S "input" && getAttr e (S "type") = some (S "hidden"))

/-- DOM `label.control`: the `for`-referenced element when labelable,
otherwise the first labelable descendant when no `for` is given. -/
def labelControl (doc : Doc) (lbl : EInfo) : Option EInfo :=
  match getAttr lbl (S "for") with
  | some idv =>
    match byId doc idv with
    | some e => if labelable e then some e else none
    | none => none
  | none => (elemsUnder doc lbl).find? labelable

/-- `label.control || document.getElementById(label.htmlFor)` as used by the
click and focus locators. -/
def labelTargetOf (doc : Doc) (lbl : EInfo) : Option EInfo :=
  match labelControl doc lbl with
  | some e => some e
  | none =>
    match getAttr lbl (S "for") with
    | some idv => byId doc idv
    | none => none

/-- `el.value` is a property only of form elements; elsewhere it is
`undefined` (falsy for `matches`). -/
def valueProp (e : EInfo) : Option Str :=
  if toLow e.tag ∈ [S "input", S "textarea", S "select", S "button", S "option"]
  then some ((getAttr e (S "value")).getD [])
  else none

/-- Outcome of the page-context click helpers: either the element that
received `el.click()` (by path) together with `el.tagName.toLowerCase()`, or
the error object — in which case nothing was clicked. -/
inductive ClickOutcome where
  | clicked (path : List Nat) (tag : Str)
  | failed (msg : Str)
deriving Repr, DecidableEq

/-- src/unnamed/part_002 `clickElementByRef` (= the ref branch of
src/lib/locators.js `buildClickElementJS`): walk all elements in document
order, index into the list, click on hit, error when out of range. -/
def clickByRef (doc : Doc) (index : Int) (refName : Str) : ClickOutcome :=
  let elements := docElems doc
  match (if 0 ≤ index then elements.get? index.toNat else none) with
  | some el => .clicked el.path (toLow el.tag)
  | none => .failed (S "Element " ++ refName ++ S " not found")

def digitVal (c : Char) : Nat := c.toNat - ('0').toNat

/-- `parseInt` on a digit string. -/
def digitsVal (ds : Str) : Nat := ds.foldl (fun acc c => 10 * acc + digitVal c) 0

/-- The regex `/^e\d+$/` of `buildClickElementJS`. -/
def isRefTok (t : Str) : Bool :=
  match t with
  | c :: ds => c = 'e' && ds ≠ [] && ds.all Char.isDigit
  | [] => false

/-- src/unnamed/part_002 `clickElementByText` (= the text branch of
`buildClickElementJS`): optional scope container lookup, then the ordered
strategy chain, each strategy a `find` over a `querySelectorAll` list. -/
def clickElementByText (doc : Doc) (text : Str) (scopeText : Option Str) : ClickOutcome :=
  let lower := toLow text
  let root : Option EInfo :=
    match scopeText with
    | none => none
    | some st =>
      if st = [] then none
      else
        let scopeLower := toLow st
        let containers := (docElems doc).filter containerSel
        containers.find? (fun c => containsSub (toLow (trim (textContent doc c))) scopeLower)
  let qsa : (EInfo → Bool) → List EInfo := fun sel =>
    match root with
    | some c => (elemsUnder doc c).filter sel
    | none => (docElems doc).filter sel
  let el1 := (qsa interactiveSel).find?
    (fun e => matchesStr lower (textContent doc e) || matchesOpt lower (valueProp e))
  let el2 := match el1 with
    | some e => some e
    | none => (qsa isInputOrTextarea).find?
        (fun e => matchesStr lower ((getAttr e (S "placeholder")).getD []))
  let el3 := match el2 with
    | some e => some e
    | none =>
      match (qsa isLabelEl).find? (fun l => matchesStr lower (textContent doc l)) with
      | some lbl => labelTargetOf doc lbl
      | none => none
  let el4 := match el3 with
    | some e => some e
    | none => (qsa (hasAttrSel (S "aria-label"))).find?
        (fun e => matchesOpt lower (getAttr e (S "aria-label")))
  let el5 := match el4 with
    | some e => some e
    | none => (qsa (hasAttrSel (S "title"))).find?
        (fun e => matchesOpt lower (getAttr e (S "title")))
  let el6 := match el5 with
    | some e => some e
    | none => (qsa (fun _ => true)).find?
        (fun e => matchesStr lower (textContent doc e) && childElemCount doc e = 0)
  match el6 with
  | some el => .clicked el.path (toLow el.tag)
  | none => .failed (S "No element found matching: " ++ text ++
      (match scopeText with
       | some st => if st = [] then [] else S " in \"" ++ st ++ S "\""
       | none => []))

/-- src/lib/locators.js `buildClickElementJS`: dispatch between the snapshot
ref walk and the text strategies. -/
def clickElement (doc : Doc) (target : Str) (scope : Option Str) : ClickOutcome :=
  match target with
  | c :: ds =>
    if c = 'e' && ds ≠ [] && ds.all Char.isDigit then
      clickByRef doc ((digitsVal ds : Int) - 1) target
    else clickElementByText doc (c :: ds) scope
  | [] => clickElementByText doc [] scope

/-! ## Spec-side click resolver (for the refinement claim about scoped clicks)

These definitions follow the wording of spec §4.2: an ordered list of
strategies evaluated with early return, restricted to the first container
(selected by *substring* containment of the scope text) when one exists,
otherwise to the whole document; the target itself is matched by full trimmed
case-insensitive equality (`matchesStr`). -/

/-- Spec wording: "first locate a container (`li, tr, [role=listitem/row],
article, div`) whose trimmed text contains the scope text (substring, not
exact match)". -/
def specContainer (doc : Doc) (st : Str) : Option EInfo :=
  (docElems doc).find?
    (fun c => containerSel c && containsSub (toLow (trim (textContent doc c))) (toLow st))

/-- Spec wording: "if found, restrict steps (1)-(6) to within that container;
otherwise search the whole document". -/
def specSearchBase (doc : Doc) (scope : Option Str) : List EInfo :=
  match scope with
  | some st =>
    if st = [] then docElems doc
    else
      match specContainer doc st with
      | some c => elemsUnder doc c
      | none => docElems doc
  | none => docElems doc

/-- Spec §4.2 strategies (1)-(6) as an ordered list of closures over the
restricted search base. -/
def specStrategies (doc : Doc) (lower : Str) : List (List EInfo → Option EInfo) :=
  [ fun es => (es.filter interactiveSel).find?
      (fun e => matchesStr lower (textContent doc e) || matchesOpt lower (valueProp e)),
    fun es => (es.filter isInputOrTextarea).find?
      (fun e => matchesStr lower ((getAttr e (S "placeholder")).getD [])),
    fun es =>
      match (es.filter isLabelEl).find? (fun l => matchesStr lower (textContent doc l)) with
      | some lbl => labelTargetOf doc lbl
      | none => none,
    fun es => (es.filter (hasAttrSel (S "aria-label"))).find?
      (fun e => matchesOpt lower (getAttr e (S "aria-label"))),
    fun es => (es.filter (hasAttrSel (S "title"))).find?
      (fun e => matchesOpt lower (getAttr e (S "title"))),
    fun es => es.find?
      (fun e => matchesStr lower (textContent doc e) && childElemCount doc e = 0) ]

/-- "First strategy to produce a match wins; later strategies are not
consulted": run the strategies in order, keeping the first hit. -/
def firstHit (fs : List (List EInfo → Option EInfo)) (es : List EInfo) : Option EInfo :=
  fs.foldl (fun acc f =>
    match acc with
    | some e => some e
    | none => f es) none

/-- The spec-side resolver: strategies in order over the scoped search base. -/
def specResolveClick (doc : Doc) (text : Str) (scope : Option Str) : Option EInfo :=
  firstHit (specStrategies doc (toLow text)) (specSearchBase doc scope)

/-! ## Checkbox toggle (src/unnamed/part_002 `checkElement`, lines 146-172)

The claim under verification concerns the act phase on the already-resolved
element, so the element is modelled directly by its `type` property and
`checked` state.  `el.click()` is the DOM primitive: it toggles a checkbox,
while on a radio button it sets `checked` (a radio is never unchecked by
clicking it). -/

structure ToggleEl where
  typ : Str
  checked : Bool
deriving Repr, DecidableEq

/-- DOM semantics of `el.click()` on a checkbox or radio input. -/
def clickToggleEl (el : ToggleEl) : ToggleEl :=
  if el.typ = S "checkbox" then { el with checked := !el.checked }
  else if el.typ = S "radio" then { el with checked := true }
  else el

inductive CheckActRes where
  | okChecked (checked : Bool)
  | errNoBox (msg : Str)
deriving Repr, DecidableEq

/-- Act phase of `checkElement` on the resolved element: the type guard, the
conditional `el.click()` (recorded as a click count) and the returned
`{ success, checked: el.checked }`.  Result: final element, number of clicks
dispatched, returned value. -/
def checkElementAct (el : ToggleEl) (want : Bool) : ToggleEl × Nat × CheckActRes :=
  if ¬(el.typ = S "checkbox" ∨ el.typ = S "radio") then
    (el, 0, .errNoBox (S "No checkbox found"))
  else if el.checked ≠ want then
    let el2 := clickToggleEl el
    (el2, 1, .okChecked el2.checked)
  else (el, 0, .okChecked el.checked)

/-! ## Verify commands (src/background.js lines 1790-1879)

The CDP `Runtime.evaluate` round trip is the external collaborator; its
outcome is a parameter: either a returned JavaScript value or a thrown
transport error (which the handlers catch). -/

inductive JsVal where
  | vBool (b : Bool)
  | vStr (s : Str)
  | vUndef
deriving Repr, DecidableEq

inductive EvalOutcome where
  | ok (v : JsVal)
  | threw (msg : Str)
deriving Repr, DecidableEq

inductive RKind where
  | success | error | info | snapshot | screenshot
deriving Repr, DecidableEq

/-- The `{ success, type, data }` result object every command returns. -/
structure CmdResult where
  success : Bool
  type : RKind
  data : Str
deriving Repr, DecidableEq

/-- `result.result?.value === true`. -/
def isTrueVal (v : JsVal) : Bool := v = .vBool true

/-- src/background.js `cmdVerifyText` (also serving `verify-no-text`). -/
def cmdVerifyText (args : List Str) (shouldExist : Bool) (out : EvalOutcome) : CmdResult :=
  match args with
  | [] =>
    ⟨false, .error, S "Usage: verify-" ++ (if shouldExist then [] else S "no-") ++ S "text \"text\""⟩
  | text :: _ =>
    match out with
    | .threw m => ⟨false, .error, S "Verify failed: " ++ m⟩
    | .ok v =>
      let found := isTrueVal v
      if shouldExist && found then
        ⟨true, .success, S "PASS: Text \"" ++ text ++ S "\" found on page"⟩
      else if shouldExist && !found then
        ⟨false, .error, S "FAIL: Text \"" ++ text ++ S "\" not found on page"⟩
      else if !shouldExist && !found then
        ⟨true, .success, S "PASS: Text \"" ++ text ++ S "\" not present (as expected)"⟩
      else
        ⟨false, .error, S "FAIL: Text \"" ++ text ++ S "\" was found on page (expected absent)"⟩

/-- src/background.js `cmdVerifyElement` (also serving `verify-no-element`). -/
def cmdVerifyElement (args : List Str) (shouldExist : Bool) (out : EvalOutcome) : CmdResult :=
  match args with
  | [] =>
    ⟨false, .error, S "Usage: verify-" ++ (if shouldExist then [] else S "no-") ++ S "element \"target\""⟩
  | target :: _ =>
    match out with
    | .threw m => ⟨false, .error, S "Verify failed: " ++ m⟩
    | .ok v =>
      let found := isTrueVal v
      if shouldExist && found then
        ⟨true, .success, S "PASS: Element \"" ++ target ++ S "\" found"⟩
      else if shouldExist && !found then
        ⟨false, .error, S "FAIL: Element \"" ++ target ++ S "\" not found"⟩
      else if !shouldExist && !found then
        ⟨true, .success, S "PASS: Element \"" ++ target ++ S "\" not present (as expected)"⟩
      else
        ⟨false, .error, S "FAIL: Element \"" ++ target ++ S "\" was found (expected absent)"⟩

/-- `result.result?.value || ""` for the url/title reads. -/
def strValOrEmpty (v : JsVal) : Str :=
  match v with
  | .vStr s => s
  | _ => []

/-- src/background.js `cmdVerifyUrl`. -/
def cmdVerifyUrl (args : List Str) (out : EvalOutcome) : CmdResult :=
  match args with
  | [] => ⟨false, .error, S "Usage: verify-url \"substring\""⟩
  | expected :: _ =>
    match out with
    | .threw m => ⟨false, .error, S "Verify failed: " ++ m⟩
    | .ok v =>
      let url := strValOrEmpty v
      if containsSub url expected then
        ⟨true, .success, S "PASS: URL contains \"" ++ expected ++ S "\" (" ++ url ++ S ")"⟩
      else
        ⟨false, .error, S "FAIL: URL does not contain \"" ++ expected ++ S "\" (" ++ url ++ S ")"⟩

/-- src/background.js `cmdVerifyTitle`. -/
def cmdVerifyTitle (args : List Str) (out : EvalOutcome) : CmdResult :=
  match args with
  | [] => ⟨false, .error, S "Usage: verify-title \"expected\""⟩
  | expected :: _ =>
    match out with
    | .threw m => ⟨false, .error, S "Verify failed: " ++ m⟩
    | .ok v =>
      let title := strValOrEmpty v
      if containsSub title expected then
        ⟨true, .success, S "PASS: Title contains \"" ++ expected ++ S "\" (\"" ++ title ++ S "\")"⟩
      else
        ⟨false, .error, S "FAIL: Title does not contain \"" ++ expected ++ S "\" (\"" ++ title ++ S "\")"⟩

/-! ## Converter (src/lib/converter.js `pwToPlaywright`) and whole-script
export (src/panel/panel.js `exportFromLines`). -/

/-- `JSON.stringify` on a string of printable characters: wrap in double
quotes, escaping `"` and `\`. -/
def escJson (s : Str) : Str :=
  s.foldr (fun c acc => (if c = '"' || c = '\\' then ['\\', c] else [c]) ++ acc) []

def jsonQuote (s : Str) : Str := '"' :: escJson s ++ ['"']

/-- The regex-special characters escaped by the `verify-url`/`verify-title`
cases: `.replace(/[.*+?^$\x7b\x7d()|[\]\\/]/g, "\\$&")`. -/
def escRegex (s : Str) : Str :=
  s.foldr (fun c acc =>
    (if c ∈ S ".*+?^$\x7b\x7d()|[]\\/" then ['\\', c] else [c]) ++ acc) []

/-- `/^https?:\/\//i.test(url)`. -/
def hasHttpScheme (url : Str) : Bool :=
  startsWithB (S "http://") (toLow url) || startsWithB (S "https://") (toLow url)

/-- `args.join(" ")`. -/
def joinSpace (xs : List Str) : Str :=
  match xs with
  | [] => []
  | x :: rest => rest.foldl (fun acc y => acc ++ ' ' :: y) x

/-- `key.charAt(0).toUpperCase() + key.slice(1)`. -/
def capFirst (s : Str) : Str :=
  match s with
  | [] => []
  | c :: cs => Char.toUpper c :: cs

/-- The canonical names and aliases carried by the `switch` of the converter;
anything else falls to the `// unknown command` default. -/
def converterKnown (command : Str) : Bool :=
  command ∈ [S "goto", S "open", S "click", S "c", S "dblclick", S "fill",
    S "f", S "select", S "check", S "uncheck", S "hover", S "press", S "p",
    S "screenshot", S "snapshot", S "s", S "eval", S "go-back", S "back",
    S "go-forward", S "forward", S "reload", S "verify-text",
    S "verify-no-text", S "verify-element", S "verify-no-element",
    S "verify-url", S "verify-title"]

/-- src/lib/converter.js `pwToPlaywright`: tokenize, then the `switch` on the
lowercased first token.  `none` models the `null` returns (missing required
arguments); the unknown-command default produces a code comment carrying the
raw input. -/
def pwToPlaywright (cmd : Str) : Option Str :=
  match tokenize cmd with
  | [] => none
  | t0 :: args =>
    let command := toLow t0
    let a0 := args.getD 0 []
    let a1 := args.getD 1 []
    if command = S "goto" ∨ command = S "open" then
      if a0 = [] then none
      else
        let url := if hasHttpScheme a0 then a0 else S "https://" ++ a0
        some (S "await page.goto(" ++ jsonQuote url ++ S ");")
    else if command = S "click" ∨ command = S "c" then
      if a0 = [] then none
      else if isRefTok a0 then
        some (S "// click " ++ a0 ++ S " — snapshot ref, use a locator instead")
      else if a1 ≠ [] then
        some (S "await page.getByText(" ++ jsonQuote a1 ++ S ").getByText("
          ++ jsonQuote a0 ++ S ").click();")
      else some (S "await page.getByText(" ++ jsonQuote a0 ++ S ").click();")
    else if command = S "dblclick" then
      if a0 = [] then none
      else some (S "await page.getByText(" ++ jsonQuote a0 ++ S ").dblclick();")
    else if command = S "fill" ∨ command = S "f" then
      if args.length < 2 then none
      else some (S "await page.getByLabel(" ++ jsonQuote a0 ++ S ").fill("
        ++ jsonQuote a1 ++ S ");")
    else if command = S "select" then
      if args.length < 2 then none
      else some (S "await page.getByLabel(" ++ jsonQuote a0 ++ S ").selectOption("
        ++ jsonQuote a1 ++ S ");")
    else if command = S "check" then
      if a0 = [] then none
      else some (S "await page.getByLabel(" ++ jsonQuote a0 ++ S ").check();")
    else if command = S "uncheck" then
      if a0 = [] then none
      else some (S "await page.getByLabel(" ++ jsonQuote a0 ++ S ").uncheck();")
    else if command = S "hover" then
      if a0 = [] then none
      else some (S "await page.getByText(" ++ jsonQuote a0 ++ S ").hover();")
    else if command = S "press" ∨ command = S "p" then
      if a0 = [] then none
      else some (S "await page.keyboard.press(" ++ jsonQuote (capFirst a0) ++ S ");")
    else if command = S "screenshot" then
      if a0 = S "full" then
        some (S "await page.screenshot(\x7b path: \x27screenshot.png\x27, fullPage: true \x7d);")
      else some (S "await page.screenshot(\x7b path: \x27screenshot.png\x27 \x7d);")
    else if command = S "snapshot" ∨ command = S "s" then
      some (S "// snapshot — no Playwright equivalent (use Playwright Inspector)")
    else if command = S "eval" then
      some (S "await page.evaluate(() => " ++ joinSpace args ++ S ");")
    else if command = S "go-back" ∨ command = S "back" then
      some (S "await page.goBack();")
    else if command = S "go-forward" ∨ command = S "forward" then
      some (S "await page.goForward();")
    else if command = S "reload" then
      some (S "await page.reload();")
    else if command = S "verify-text" then
      if a0 = [] then none
      else some (S "await expect(page.getByText(" ++ jsonQuote a0 ++ S ")).toBeVisible();")
    else if command = S "verify-no-text" then
      if a0 = [] then none
      else some (S "await expect(page.getByText(" ++ jsonQuote a0 ++ S ")).not.toBeVisible();")
    else if command = S "verify-element" then
      if a0 = [] then none
      else some (S "await expect(page.getByText(" ++ jsonQuote a0 ++ S ")).toBeVisible();")
    else if command = S "verify-no-element" then
      if a0 = [] then none
      else some (S "await expect(page.getByText(" ++ jsonQuote a0 ++ S ")).not.toBeVisible();")
    else if command = S "verify-url" then
      if a0 = [] then none
      else some (S "await expect(page).toHaveURL(/" ++ escRegex a0 ++ S "/);")
    else if command = S "verify-title" then
      if a0 = [] then none
      else some (S "await expect(page).toHaveTitle(/" ++ escRegex a0 ++ S "/);")
    else some (S "// unknown command: " ++ cmd)

/-- `cmd.replace("#", "//")`: replace the first occurrence of `#`. -/
def replaceFirstHash : Str → Str
  | [] => []
  | c :: t => if c = '#' then '/' :: '/' :: t else c :: replaceFirstHash t

/-- One buffer line of `exportFromLines`: comment lines become code comments;
otherwise the converted line is emitted, or nothing when the converter
returns `null`. -/
def exportLine (cmd : Str) : List Str :=
  if startsWithB (S "#") cmd then [S "  " ++ replaceFirstHash cmd]
  else
    match pwToPlaywright cmd with
    | some converted => [S "  " ++ converted]
    | none => []

/-- The fixed test-template prefix of `exportFromLines`. -/
def exportHeader : List Str :=
  [S "import \x7b test, expect \x7d from \x27@playwright/test\x27;",
   [],
   S "test(\x27recorded session\x27, async (\x7b page \x7d) => \x7b"]

/-- src/panel/panel.js `exportFromLines` (lines 344-364), as the list of
output code lines. -/
def exportFromLines (cmds : List Str) : List Str :=
  exportHeader ++ cmds.flatMap exportLine ++ [S "\x7d);"]

/-! ## Session runner (src/panel/panel.js)

`executeCommandForRun` classifies the transport result of one line; the Run
button loops over all lines; the Step button advances one executable line per
press.  The per-command transport results are a fixed assignment
`res : Nat → ExecRes` indexed by line number; `lineResults` is the
`pass`/`fail`/`null` array. -/

inductive ExecRes where
  | rSuccess | rError | rInfo | rSnapshot | rScreenshot | rOther | rThrown | rNoResponse
deriving Repr, DecidableEq

/-- Pass/fail classification of `executeCommandForRun`: the `error` result
type, a thrown transport exception and a missing response mark `fail`; every
other branch (including the `default:` arm) marks `pass`. -/
def isPass : ExecRes → Bool
  | .rError => false
  | .rThrown => false
  | .rNoResponse => false
  | _ => true

/-- src/panel/panel.js `executeCommandForRun` (lines 467-535), restricted to
its effect on `lineResults`: blank and comment lines leave it untouched;
otherwise entry `cur` (the `currentRunLine`) is set from the result. -/
def execCmdForRun (raw : Str) (r : ExecRes) (cur : Nat)
    (results : List (Option Bool)) : List (Option Bool) :=
  let t := trim raw
  if t = [] then results
  else if t.head? = some '#' then results
  else results.set cur (some (isPass r))

/-- The line loop of the Run button (src/panel/panel.js lines 703-716, fresh run,
never cancelled): blank lines are skipped before the call, comments inside
it. -/
def runLoop (res : Nat → ExecRes) : List Str → Nat → List (Option Bool) → List (Option Bool)
  | [], _, acc => acc
  | l :: rest, i, acc =>
    let line := trim l
    if line = [] then runLoop res rest (i + 1) acc
    else runLoop res rest (i + 1) (execCmdForRun line (res i) i acc)

/-- A fresh Run of the whole buffer: `lineResults` reset to `null`s, loop
from line 0. -/
def runScript (lines : List Str) (res : Nat → ExecRes) : List (Option Bool) :=
  runLoop res lines 0 (List.replicate lines.length none)

/-- `trimmed && !trimmed.startsWith("#")` of `findNextExecutableLine`. -/
def executableLine (l : Str) : Bool :=
  trim l ≠ [] && (trim l).head? ≠ some '#'

def findNextExecGo : List Str → Nat → Option Nat
  | [], _ => none
  | l :: rest, i => if executableLine l then some i else findNextExecGo rest (i + 1)

/-- src/panel/panel.js `findNextExecutableLine` (lines 312-318); `none`
models its `-1`. -/
def findNextExec (lines : List Str) (startFrom : Nat) : Option Nat :=
  findNextExecGo (lines.drop startFrom) startFrom

/-- Step-mode state: `stepLine` (where `none` models the `-1` sentinel) and
the `lineResults` array. -/
structure StepState where
  stepLine : Option Nat
  results : List (Option Bool)
deriving Repr, DecidableEq

/-- One press of the Step button (src/panel/panel.js lines 729-779): on the
sentinel, initialize `stepLine := 0` and reset `lineResults`; find the next
executable line; execute it; advance; reset the sentinel when no executable
line remains. -/
def stepOnce (lines : List Str) (res : Nat → ExecRes) (st : StepState) : StepState :=
  let s0 := st.stepLine.getD 0
  let results0 :=
    match st.stepLine with
    | none => List.replicate lines.length none
    | some _ => st.results
  match findNextExec lines s0 with
  | none => ⟨none, results0⟩
  | some n =>
    let results2 := execCmdForRun (lines.getD n []) (res n) n results0
    if findNextExec lines (n + 1) = none then ⟨none, results2⟩
    else ⟨some (n + 1), results2⟩

/-- `k` presses of the Step button starting from the sentinel state (fresh
editor). -/
def stepN (lines : List Str) (res : Nat → ExecRes) : Nat → StepState
  | 0 => ⟨none, []⟩
  | k + 1 => stepOnce lines res (stepN lines res k)

/-- Indices of the executable lines, in order, starting at line number `i`. -/
def execIdxsFrom : Nat → List Str → List Nat
  | _, [] => []
  | i, l :: rest =>
    if executableLine l then i :: execIdxsFrom (i + 1) rest
    else execIdxsFrom (i + 1) rest

/-- The number `L` of executable (non-blank, non-comment) lines. -/
def countExec (lines : List Str) : Nat := (execIdxsFrom 0 lines).length

/-- The per-line pass/fail sequence over the executable lines only (blanks
and comments uncounted). -/
def execMarks (lines : List Str) (results : List (Option Bool)) : List (Option Bool) :=
  (execIdxsFrom 0 lines).map (fun i => results.getD i none)

/-- Write the pass/fail mark of each listed line index into the results
array (the common abstraction both Run and Step refine). -/
def setVals (res : Nat → ExecRes) (idxs : List Nat)
    (acc : List (Option Bool)) : List (Option Bool) :=
  idxs.foldl (fun a i => a.set i (some (isPass (res i)))) acc

/-! ## Recorder (src/background.js `getRecorderCode`, lines 502-686)

The injected recorder script with the 1500 ms fill debounce.  An event
target is a snapshot of the DOM facts the handlers read: its own properties
plus the results of the associated-label queries (`label[for=id]`,
`el.closest("label")`, `getItemContext`), which are environment lookups.
Commands are modelled structurally, one constructor per `send` call shape;
timers are modelled by their deadline, fired lazily before the next event
(or at the final observation time) once due. -/

structure ElCore where
  tagName : Str
  typeAttr : Str
  value : Str
  checked : Bool
  ariaLabel : Str
  id : Str
  labelForText : Str
  closestLabelText : Str
  placeholder : Str
  textContent : Str
  childCount : Nat
  title : Str
  className : Str
  roleAttr : Str
  onclickAttr : Str
  itemContext : Str
  closestListItem : Bool
deriving Repr, DecidableEq

/-- The `quote` helper of the recorder: wrap in `"`, escaping inner `"` as `\"`. -/
def escQuote (s : Str) : Str :=
  s.foldr (fun c acc => (if c = '"' then ['\\', '"'] else [c]) ++ acc) []

def quoteLoc (s : Str) : Str := '"' :: escQuote s ++ ['"']

/-- `getLocator` of the injected recorder (src/background.js lines 507-533):
aria-label, label-for text, wrapping label text, placeholder, own short leaf
text, button/link text, title, lowercased tag fallback. -/
def getLocator (el : ElCore) : Str :=
  if el.ariaLabel ≠ [] then quoteLoc el.ariaLabel
  else if el.id ≠ [] && trim el.labelForText ≠ [] then quoteLoc (trim el.labelForText)
  else if trim el.closestLabelText ≠ [] then quoteLoc (trim el.closestLabelText)
  else if el.placeholder ≠ [] then quoteLoc el.placeholder
  else
    let text := trim el.textContent
    if text ≠ [] && text.length < 80 && el.childCount = 0 then quoteLoc text
    else if (el.tagName = S "BUTTON" || el.tagName = S "A") && text ≠ [] && text.length < 80 then
      quoteLoc text
    else if el.title ≠ [] then quoteLoc el.title
    else quoteLoc (if el.tagName ≠ [] then toLow el.tagName else S "unknown")

/-- A click target: the element plus the checkbox-association lookups made by
`findCheckbox`. -/
structure RTarget where
  core : ElCore
  labelChildCb : Option ElCore
  htmlForAttr : Str
  htmlForElem : Option ElCore
  closestLabelCb : Option ElCore
deriving Repr, DecidableEq

/-- `findCheckbox` (src/background.js lines 573-592): the element itself, a
checkbox inside or referenced by a clicked label, or one inside the nearest
ancestor label. -/
def findCheckbox (el : RTarget) : Option ElCore :=
  if el.core.tagName = S "INPUT" && el.core.typeAttr = S "checkbox" then some el.core
  else
    let fromLabel : Option ElCore :=
      if el.core.tagName = S "LABEL" then
        match el.labelChildCb with
        | some input => some input
        | none =>
          if el.htmlForAttr ≠ [] then
            match el.htmlForElem with
            | some t => if t.typeAttr = S "checkbox" then some t else none
            | none => none
          else none
      else none
    match fromLabel with
    | some cb => some cb
    | none => el.closestLabelCb

/-- One recorded command per `send` call site; `fillCmd` carries the raw
field value (the emitted string renders it quoted with `"` escaped). -/
inductive RCmd where
  | fillCmd (locator : Str) (value : Str)
  | checkCmd (arg : Str)
  | uncheckCmd (arg : Str)
  | clickCmd (locator : Str) (scopeArg : Option Str)
  | pressCmd (key : Str)
  | selectCmd (locator : Str) (optText : Str)
deriving Repr, DecidableEq

/-- Recorder debounce state: `fillTimer` (as its deadline), `fillTarget`,
`fillValue`. -/
structure RState where
  fillDeadline : Option Nat
  fillTarget : Option ElCore
  fillValue : Str
deriving Repr, DecidableEq

def initRState : RState := ⟨none, none, []⟩

/-- `flushFill` (src/background.js lines 560-568): emit only when both a
target and a nonempty value are pending, then clear all three fields. -/
def flushFill (st : RState) : RState × List RCmd :=
  let out :=
    match st.fillTarget with
    | some t => if st.fillValue ≠ [] then [RCmd.fillCmd (getLocator t) st.fillValue] else []
    | none => []
  (initRState, out)

def skipTags : List Str :=
  [S "HTML", S "BODY", S "MAIN", S "FOOTER", S "HEADER", S "NAV", S "SECTION",
   S "ARTICLE", S "DIV", S "UL", S "OL", S "FORM", S "FIELDSET", S "TABLE",
   S "TBODY", S "THEAD", S "TR"]

def actionWords : List Str :=
  [S "delete", S "remove", S "edit", S "close", S "destroy",
   S "×", S "✕", S "✖", S "✗", S "✘", S "x"]

/-- The command(s) recorded for a click after the flush (src/background.js
`handleClick`, lines 594-643): skip text inputs and bare containers; emit
`check`/`uncheck` for an associated checkbox (item-context text when
available); otherwise a `click`, scoped to the item context when the
action-button heuristic fires. -/
def clickEmit (el : RTarget) : List RCmd :=
  if el.core.tagName = [] then []
  else if (el.core.tagName = S "INPUT" && el.core.typeAttr ≠ S "checkbox"
            && el.core.typeAttr ≠ S "radio") || el.core.tagName = S "TEXTAREA" then []
  else if skipTags.contains el.core.tagName && el.core.roleAttr = []
          && el.core.onclickAttr = [] then []
  else
    match findCheckbox el with
    | some cb =>
      let cbLabel := cb.itemContext
      if cbLabel ≠ [] then
        [if cb.checked then RCmd.checkCmd ('"' :: cbLabel ++ ['"'])
         else RCmd.uncheckCmd ('"' :: cbLabel ++ ['"'])]
      else
        [if cb.checked then RCmd.checkCmd (getLocator cb)
         else RCmd.uncheckCmd (getLocator cb)]
    | none =>
      let locator := getLocator el.core
      let elText := toLow (trim el.core.textContent)
      let elClass := toLow el.core.className
      let elAria := toLow el.core.ariaLabel
      let isAction := actionWords.contains elText
        || actionWords.any (fun w => containsSub elClass w)
        || actionWords.any (fun w => containsSub elAria w)
        || (el.core.tagName = S "BUTTON" && elText = [] && el.core.closestListItem)
      let ctx := el.core.itemContext
      if ctx ≠ [] && isAction then
        [RCmd.clickCmd locator (some ('"' :: escQuote ctx ++ ['"']))]
      else [RCmd.clickCmd locator none]

/-- `handleClick`: flush any pending fill (only when a timer is armed), then
record the click. -/
def handleClick (st : RState) (el : RTarget) : RState × List RCmd :=
  let (st1, out1) := if st.fillDeadline.isSome then flushFill st else (st, [])
  (st1, out1 ++ clickEmit el)

/-- `handleInput` (src/background.js lines 645-653): text fields only; store
target and value, restart the 1500 ms debounce. -/
def handleInput (st : RState) (el : ElCore) (t : Nat) : RState :=
  if el.tagName ≠ S "INPUT" && el.tagName ≠ S "TEXTAREA" then st
  else if el.typeAttr = S "checkbox" || el.typeAttr = S "radio" then st
  else ⟨some (t + 1500), some el, el.value⟩

/-- `handleChange` (src/background.js lines 655-662): a `select` change is
recorded immediately, without touching the fill state. -/
def changeEmit (el : ElCore) (optText : Str) : List RCmd :=
  if el.tagName = S "SELECT" then [RCmd.selectCmd (getLocator el) optText] else []

/-- `handleKeydown` (src/background.js lines 664-670): special keys flush a
pending fill, then record `press`. -/
def handleKeydown (st : RState) (key : Str) : RState × List RCmd :=
  if key ∈ [S "Enter", S "Tab", S "Escape"] then
    let (st1, out1) := if st.fillDeadline.isSome then flushFill st else (st, [])
    (st1, out1 ++ [RCmd.pressCmd key])
  else (st, [])

inductive REvent where
  | input (el : ElCore)
  | click (el : RTarget)
  | keydown (key : Str)
  | change (el : ElCore) (optText : Str)
  | stopRec
deriving Repr, DecidableEq

/-- Fire the debounce timer when its deadline has passed. -/
def timerFire (timeNow : Nat) (st : RState) : RState × List RCmd :=
  match st.fillDeadline with
  | some d => if d ≤ timeNow then flushFill st else (st, [])
  | none => (st, [])

/-- Process one timestamped event: an armed timer that is due fires first,
then the handler runs.  `stopRec` is the cleanup of
`window.__pwRecorderCleanup`. -/
def procEvent (st : RState) : Nat × REvent → RState × List RCmd
  | (t, ev) =>
    let (st1, out1) := timerFire t st
    match ev with
    | .input el => (handleInput st1 el t, out1)
    | .click el =>
      let (st2, out2) := handleClick st1 el
      (st2, out1 ++ out2)
    | .keydown k =>
      let (st2, out2) := handleKeydown st1 k
      (st2, out1 ++ out2)
    | .change el opt => (st1, out1 ++ changeEmit el opt)
    | .stopRec =>
      let (st2, out2) := if st1.fillDeadline.isSome then flushFill st1 else (st1, [])
      (st2, out1 ++ out2)

def runRecFrom (st : RState) : List (Nat × REvent) → Nat → RState × List RCmd
  | [], tEnd => timerFire tEnd st
  | e :: rest, tEnd =>
    let (st1, out1) := procEvent st e
    let (st2, out2) := runRecFrom st1 rest tEnd
    (st2, out1 ++ out2)

/-- Run the recorder over a timestamped event list, observing the output up
to time `tEnd` (a due timer fires by then). -/
def runRec (events : List (Nat × REvent)) (tEnd : Nat) : RState × List RCmd :=
  runRecFrom initRState events tEnd

/-! ## Statement apparatus for the debounce claims -/

/-- A burst of `input` events on one text field: the field snapshot at each
event carries the value at that event. -/
def burstEvents (base : ElCore) (t0 : Nat) (v0 : Str) (tvs : List (Nat × Str)) :
    List (Nat × REvent) :=
  (t0, REvent.input { base with value := v0 })
    :: tvs.map (fun p => (p.1, REvent.input { base with value := p.2 }))

/-- Every event of the burst arrives less than the 1500 ms debounce window
after the previous one. -/
def gapsOk : Nat → List (Nat × Str) → Bool
  | _, [] => true
  | tPrev, (t, _) :: rest => decide (t < tPrev + 1500) && gapsOk t rest

/-- Time and value of the last event of the burst. -/
def lastTimeVal (t0 : Nat) (v0 : Str) : List (Nat × Str) → Nat × Str
  | [] => (t0, v0)
  | (t, v) :: rest => lastTimeVal t v rest

/-- A concrete text field (an `input` with an aria-label), used as a test
page element. -/
def sampleField : ElCore :=
  { tagName := S "INPUT", typeAttr := S "text", value := [], checked := false,
    ariaLabel := S "Email", id := [], labelForText := [], closestLabelText := [],
    placeholder := [], textContent := [], childCount := 0, title := [],
    className := [], roleAttr := [], onclickAttr := [], itemContext := [],
    closestListItem := false }

/-- A concrete button element, used as a test page element. -/
def sampleButtonCore : ElCore :=
  { tagName := S "BUTTON", typeAttr := [], value := [], checked := false,
    ariaLabel := [], id := [], labelForText := [], closestLabelText := [],
    placeholder := [], textContent := S "Go", childCount := 0, title := [],
    className := [], roleAttr := [], onclickAttr := [], itemContext := [],
    closestListItem := false }

/-- The button as a click target (no checkbox associations). -/
def sampleButton : RTarget :=
  { core := sampleButtonCore, labelChildCb := none, htmlForAttr := [],
    htmlForElem := none, closestLabelCb := none }

/-! ## Helper lemmas -/

theorem dropWhile_append_singleton (xs : Str) (c : Char) (hc : isWsChar c = false) :
    (xs ++ [c]).dropWhile isWsChar = xs.dropWhile isWsChar ++ [c] := by
  induction xs with
  | nil => simp [List.dropWhile, hc]
  | cons x xs ih =>
    by_cases hx : isWsChar x
    · simpa [List.dropWhile, hx] using ih
    · simp [List.dropWhile, hx]

theorem trim_eq_nil_of_ws (raw : Str) (h : ∀ c ∈ raw, c = ' ' ∨ c = '\t') :
    trim raw = [] := by
  have hdrop : raw.dropWhile isWsChar = [] := by
    rw [List.dropWhile_eq_nil_iff]
    intro c hcm
    rcases h c hcm with h1 | h1 <;> simp [isWsChar, h1]
  simp [trim, hdrop]

theorem trim_cons_of_head (raw : Str) (c : Char) (rest : Str) (hc : isWsChar c = false)
    (h : raw.dropWhile isWsChar = c :: rest) :
    trim raw = c :: (rest.reverse.dropWhile isWsChar).reverse := by
  unfold trim
  rw [h, List.reverse_cons, dropWhile_append_singleton _ _ hc]
  simp

theorem tokRun_in_quote (rest : Str) (s : TokState) (hq : s.inQuote = true)
    (hnc : ∀ c ∈ rest, c ≠ s.quoteChar) :
    rest.foldl tokStep s = { s with current := s.current ++ rest } := by
  induction rest generalizing s with
  | nil => cases s; simp
  | cons c rest ih =>
    have hne : c ≠ s.quoteChar := hnc c (by simp)
    have hstep : tokStep s c = { s with current := s.current ++ [c] } := by
      simp [tokStep, hq, hne]
    rw [List.foldl_cons, hstep,
      ih { s with current := s.current ++ [c] } hq (fun d hd => hnc d (by simp [hd]))]
    simp

theorem tokRun_plain (cs : Str) (s : TokState) (hq : s.inQuote = false)
    (hplain : ∀ c ∈ cs, isWsChar c = false ∧ c ≠ '"' ∧ c ≠ sqChar) :
    cs.foldl tokStep s = { s with current := s.current ++ cs } := by
  induction cs generalizing s with
  | nil => cases s; simp
  | cons c cs ih =>
    obtain ⟨hws, hdq, hsq⟩ := hplain c (by simp)
    have hstep : tokStep s c = { s with current := s.current ++ [c] } := by
      have hws1 : ¬(c = ' ' ∨ c = '\t') := by
        rintro (h1 | h1) <;> simp [isWsChar, h1] at hws
      simp [tokStep, hq, hdq, hsq, hws1]
    rw [List.foldl_cons, hstep,
      ih { s with current := s.current ++ [c] } hq (fun d hd => hplain d (by simp [hd]))]
    simp

/-! ## Claim C2 — tokenizer behavior -/

/-- Claim C2, counterexample to the claim as stated: the line `click "a `
ends in an unterminated quote whose remaining characters up to end of line
are `a` followed by a space, yet the final token is `a` alone — the line is
whitespace-trimmed before the quote scan, so the trailing space is not
absorbed into the token. -/
theorem c2_tokenize_counterexample :
    tokenize (S "click \"a ") = [S "click", S "a"] ∧ (S "a" : Str) ≠ S "a " := by
  constructor
  · decide
  · decide

/-- Claim C2 (amended): `tokenize` maps blank/whitespace-only lines and
comment lines to `[]`; the quoted example holds; and on the *trimmed* line an
unterminated quote absorbs all remaining characters into the pending token,
which is emitted only when nonempty (no error is produced). -/
theorem c2_tokenize_amended :
    (∀ raw : Str, (∀ c ∈ raw, c = ' ' ∨ c = '\t') → tokenize raw = [])
  ∧ (∀ raw rest : Str, raw.dropWhile isWsChar = '#' :: rest → tokenize raw = [])
  ∧ tokenize (S "fill \"Email\" \"a b\"") = [S "fill", S "Email", S "a b"]
  ∧ (∀ (raw pre rest : Str) (q : Char), (q = '"' ∨ q = sqChar) →
      trim raw = pre ++ q :: rest →
      (trim raw).head? ≠ some '#' →
      (pre.foldl tokStep initTokState).inQuote = false →
      (∀ c ∈ rest, c ≠ q) →
      tokenize raw = (pre.foldl tokStep initTokState).tokens ++
        (if (pre.foldl tokStep initTokState).current ++ rest = [] then []
         else [(pre.foldl tokStep initTokState).current ++ rest])) := by
  refine ⟨?_, ?_, by decide, ?_⟩
  · intro raw h
    simp [tokenize, trim_eq_nil_of_ws raw h]
  · intro raw rest h
    have htrim := trim_cons_of_head raw '#' rest (by decide) h
    simp [tokenize, htrim]
  · intro raw pre rest q hq htrim hhash hnoq hrest
    have htne : trim raw ≠ [] := by
      rw [htrim]; simp
    unfold tokenize
    rw [if_neg htne, if_neg hhash, htrim, List.foldl_append]
    set s := pre.foldl tokStep initTokState with hs
    have hstep : tokStep s q = { s with inQuote := true, quoteChar := q } := by
      simp [tokStep, hnoq, hq]
    rw [List.foldl_cons, hstep,
      tokRun_in_quote rest _ (by simp) (by simpa using hrest)]
    simp only [tokFinish]
    by_cases hcur : s.current ++ rest = []
    · simp [hcur]
    · simp [hcur]

/-- Claim C2 witness: the amended unterminated-quote clause at the concrete
line `fill "a b` (prefix `fill `, opening quote, remainder `a b`). -/
theorem c2_tokenize_witness :
    tokenize (S "fill \"a b") =
      ((S "fill ").foldl tokStep initTokState).tokens ++
        (if ((S "fill ").foldl tokStep initTokState).current ++ S "a b" = [] then []
         else [((S "fill ").foldl tokStep initTokState).current ++ S "a b"]) :=
  c2_tokenize_amended.2.2.2 (S "fill \"a b") (S "fill ") (S "a b") '"'
    (by decide) (by decide) (by decide) (by decide) (by decide)

/-! ## Claim C8 — parseCommand -/

/-- Claim C8: `parseCommand` returns `none` exactly when tokenization yields
no tokens; otherwise the command is the lowercased first token and the args
are the remaining tokens (quoted-string boundaries preserved, since they are
the tokens themselves); alias resolution happens in the dispatch, where each
alias maps to the same command kind as its canonical name. -/
theorem c8_parse_command :
    (∀ raw : Str, parseCommand raw = none ↔ tokenize raw = [])
  ∧ (∀ (raw t : Str) (ts : List Str), tokenize raw = t :: ts →
      parseCommand raw = some ⟨toLow t, ts⟩)
  ∧ (dispatchKind (toLow (S "C")) = CommandKind.click
      ∧ dispatchKind (S "click") = CommandKind.click)
  ∧ (dispatchKind (S "f") = CommandKind.fill ∧ dispatchKind (S "fill") = CommandKind.fill)
  ∧ (dispatchKind (S "p") = CommandKind.press ∧ dispatchKind (S "press") = CommandKind.press)
  ∧ (dispatchKind (S "s") = CommandKind.snapshot
      ∧ dispatchKind (S "snapshot") = CommandKind.snapshot)
  ∧ (dispatchKind (S "back") = CommandKind.goBack
      ∧ dispatchKind (S "go-back") = CommandKind.goBack)
  ∧ (dispatchKind (S "forward") = CommandKind.goForward
      ∧ dispatchKind (S "go-forward") = CommandKind.goForward)
  ∧ (dispatchKind (S "open") = CommandKind.goto
      ∧ dispatchKind (S "goto") = CommandKind.goto) := by
  refine ⟨?_, ?_, by decide, by decide, by decide, by decide, by decide, by decide, by decide⟩
  · intro raw
    unfold parseCommand tokenize
    by_cases h1 : trim raw = []
    · simp [h1]
    · rw [if_neg h1, if_neg h1]
      by_cases h2 : (trim raw).head? = some '#'
      · simp [h2]
      · rw [if_neg h2, if_neg h2]
        cases htf : tokFinish ((trim raw).foldl tokStep initTokState) <;> simp
  · intro raw t ts h
    unfold tokenize at h
    unfold parseCommand
    by_cases h1 : trim raw = []
    · rw [if_pos h1] at h; exact absurd h (by simp)
    · rw [if_neg h1] at h ⊢
      by_cases h2 : (trim raw).head? = some '#'
      · rw [if_pos h2] at h; exact absurd h (by simp)
      · rw [if_neg h2] at h ⊢
        rw [h]

/-- Claim C8 witness: the lowercasing clause applied to the concrete line
`CLICK e5`. -/
theorem c8_parse_command_witness :
    parseCommand (S "CLICK e5") = some ⟨toLow (S "CLICK"), [S "e5"]⟩
      ∧ toLow (S "CLICK") = S "click" :=
  ⟨c8_parse_command.2.1 (S "CLICK e5") (S "CLICK") [S "e5"] (by decide), by decide⟩

theorem infix_of_split (s mid t whole : Str) (h : whole = s ++ mid ++ t) :
    mid <:+: whole := ⟨s, t, h.symm⟩

theorem isInfix_of_eq_append (head t whole : Str) (h : whole = head ++ t) :
    head <:+: whole := ⟨[], t, by simp [h]⟩

/-! ## Claim C6 — verify-family commands -/

/-- Claim C6: every verify command reports a false predicate as a normal
returned `CmdResult` (the handlers are total functions into `CmdResult`;
nothing is thrown), with `success` reflecting whether the expectation held,
`PASS`/`FAIL` leading the data text, and — for `verify-text` — `not found`
in the data when the text is missing. -/
theorem c6_verify_false_predicate :
    (∀ (text : Str) (ts : List Str) (b : Bool) (v : JsVal),
        (cmdVerifyText (text :: ts) b (.ok v)).success = (isTrueVal v == b)
      ∧ ((isTrueVal v == b) = true →
          S "PASS" <:+: (cmdVerifyText (text :: ts) b (.ok v)).data)
      ∧ ((isTrueVal v == b) = false →
          S "FAIL" <:+: (cmdVerifyText (text :: ts) b (.ok v)).data))
  ∧ (∀ (text : Str) (ts : List Str) (v : JsVal), isTrueVal v = false →
        (cmdVerifyText (text :: ts) true (.ok v)).success = false
      ∧ S "not found" <:+: (cmdVerifyText (text :: ts) true (.ok v)).data)
  ∧ (∀ (target : Str) (ts : List Str) (b : Bool) (v : JsVal),
        (cmdVerifyElement (target :: ts) b (.ok v)).success = (isTrueVal v == b)
      ∧ ((isTrueVal v == b) = true →
          S "PASS" <:+: (cmdVerifyElement (target :: ts) b (.ok v)).data)
      ∧ ((isTrueVal v == b) = false →
          S "FAIL" <:+: (cmdVerifyElement (target :: ts) b (.ok v)).data))
  ∧ (∀ (expected : Str) (ts : List Str) (v : JsVal),
        (cmdVerifyUrl (expected :: ts) (.ok v)).success
          = containsSub (strValOrEmpty v) expected
      ∧ (containsSub (strValOrEmpty v) expected = true →
          S "PASS" <:+: (cmdVerifyUrl (expected :: ts) (.ok v)).data)
      ∧ (containsSub (strValOrEmpty v) expected = false →
          S "FAIL" <:+: (cmdVerifyUrl (expected :: ts) (.ok v)).data))
  ∧ (∀ (expected : Str) (ts : List Str) (v : JsVal),
        (cmdVerifyTitle (expected :: ts) (.ok v)).success
          = containsSub (strValOrEmpty v) expected
      ∧ (containsSub (strValOrEmpty v) expected = true →
          S "PASS" <:+: (cmdVerifyTitle (expected :: ts) (.ok v)).data)
      ∧ (containsSub (strValOrEmpty v) expected = false →
          S "FAIL" <:+: (cmdVerifyTitle (expected :: ts) (.ok v)).data)) := by
  refine ⟨?_, ?_, ?_, ?_, ?_⟩
  · intro text ts b v
    cases hb : b <;> cases hv : isTrueVal v
    · have hd : (cmdVerifyText (text :: ts) false (.ok v)).data
          = S "PASS: Text \"" ++ text ++ S "\" not present (as expected)" := by
        simp [cmdVerifyText, hv]
      have hsuc : (cmdVerifyText (text :: ts) false (.ok v)).success = true := by
        simp [cmdVerifyText, hv]
      refine ⟨by simp [hsuc, hv], fun h => ?_, fun h => ?_⟩
      · rw [hd]
        exact isInfix_of_eq_append (S "PASS")
          (S ": Text \"" ++ text ++ S "\" not present (as expected)") _
          (by rw [(by decide : S "PASS: Text \"" = S "PASS" ++ S ": Text \"")]; simp)
      · simp at h
    · have hd : (cmdVerifyText (text :: ts) false (.ok v)).data
          = S "FAIL: Text \"" ++ text ++ S "\" was found on page (expected absent)" := by
        simp [cmdVerifyText, hv]
      have hsuc : (cmdVerifyText (text :: ts) false (.ok v)).success = false := by
        simp [cmdVerifyText, hv]
      refine ⟨by simp [hsuc, hv], fun h => ?_, fun h => ?_⟩
      · simp at h
      · rw [hd]
        exact isInfix_of_eq_append (S "FAIL")
          (S ": Text \"" ++ text ++ S "\" was found on page (expected absent)") _
          (by rw [(by decide : S "FAIL: Text \"" = S "FAIL" ++ S ": Text \"")]; simp)
    · have hd : (cmdVerifyText (text :: ts) true (.ok v)).data
          = S "FAIL: Text \"" ++ text ++ S "\" not found on page" := by
        simp [cmdVerifyText, hv]
      have hsuc : (cmdVerifyText (text :: ts) true (.ok v)).success = false := by
        simp [cmdVerifyText, hv]
      refine ⟨by simp [hsuc, hv], fun h => ?_, fun h => ?_⟩
      · simp at h
      · rw [hd]
        exact isInfix_of_eq_append (S "FAIL")
          (S ": Text \"" ++ text ++ S "\" not found on page") _
          (by rw [(by decide : S "FAIL: Text \"" = S "FAIL" ++ S ": Text \"")]; simp)
    · have hd : (cmdVerifyText (text :: ts) true (.ok v)).data
          = S "PASS: Text \"" ++ text ++ S "\" found on page" := by
        simp [cmdVerifyText, hv]
      have hsuc : (cmdVerifyText (text :: ts) true (.ok v)).success = true := by
        simp [cmdVerifyText, hv]
      refine ⟨by simp [hsuc, hv], fun h => ?_, fun h => ?_⟩
      · rw [hd]
        exact isInfix_of_eq_append (S "PASS")
          (S ": Text \"" ++ text ++ S "\" found on page") _
          (by rw [(by decide : S "PASS: Text \"" = S "PASS" ++ S ": Text \"")]; simp)
      · simp at h
  · intro text ts v hv
    have hd : (cmdVerifyText (text :: ts) true (.ok v)).data
        = S "FAIL: Text \"" ++ text ++ S "\" not found on page" := by
      simp [cmdVerifyText, hv]
    have hsuc : (cmdVerifyText (text :: ts) true (.ok v)).success = false := by
      simp [cmdVerifyText, hv]
    refine ⟨hsuc, ?_⟩
    rw [hd]
    exact infix_of_split (S "FAIL: Text \"" ++ text ++ S "\" ") (S "not found")
      (S " on page") _
      (by rw [(by decide :
            S "\" not found on page" = (S "\" " ++ S "not found") ++ S " on page")]
          simp)
  · intro target ts b v
    cases hb : b <;> cases hv : isTrueVal v
    · have hd : (cmdVerifyElement (target :: ts) false (.ok v)).data
          = S "PASS: Element \"" ++ target ++ S "\" not present (as expected)" := by
        simp [cmdVerifyElement, hv]
      have hsuc : (cmdVerifyElement (target :: ts) false (.ok v)).success = true := by
        simp [cmdVerifyElement, hv]
      refine ⟨by simp [hsuc, hv], fun h => ?_, fun h => ?_⟩
      · rw [hd]
        exact isInfix_of_eq_append (S "PASS")
          (S ": Element \"" ++ target ++ S "\" not present (as expected)") _
          (by rw [(by decide : S "PASS: Element \"" = S "PASS" ++ S ": Element \"")]; simp)
      · simp at h
    · have hd : (cmdVerifyElement (target :: ts) false (.ok v)).data
          = S "FAIL: Element \"" ++ target ++ S "\" was found (expected absent)" := by
        simp [cmdVerifyElement, hv]
      have hsuc : (cmdVerifyElement (target :: ts) false (.ok v)).success = false := by
        simp [cmdVerifyElement, hv]
      refine ⟨by simp [hsuc, hv], fun h => ?_, fun h => ?_⟩
      · simp at h
      · rw [hd]
        exact isInfix_of_eq_append (S "FAIL")
          (S ": Element \"" ++ target ++ S "\" was found (expected absent)") _
          (by rw [(by decide : S "FAIL: Element \"" = S "FAIL" ++ S ": Element \"")]; simp)
    · have hd : (cmdVerifyElement (target :: ts) true (.ok v)).data
          = S "FAIL: Element \"" ++ target ++ S "\" not found" := by
        simp [cmdVerifyElement, hv]
      have hsuc : (cmdVerifyElement (target :: ts) true (.ok v)).success = false := by
        simp [cmdVerifyElement, hv]
      refine ⟨by simp [hsuc, hv], fun h => ?_, fun h => ?_⟩
      · simp at h
      · rw [hd]
        exact isInfix_of_eq_append (S "FAIL")
          (S ": Element \"" ++ target ++ S "\" not found") _
          (by rw [(by decide : S "FAIL: Element \"" = S "FAIL" ++ S ": Element \"")]; simp)
    · have hd : (cmdVerifyElement (target :: ts) true (.ok v)).data
          = S "PASS: Element \"" ++ target ++ S "\" found" := by
        simp [cmdVerifyElement, hv]
      have hsuc : (cmdVerifyElement (target :: ts) true (.ok v)).success = true := by
        simp [cmdVerifyElement, hv]
      refine ⟨by simp [hsuc, hv], fun h => ?_, fun h => ?_⟩
      · rw [hd]
        exact isInfix_of_eq_append (S "PASS")
          (S ": Element \"" ++ target ++ S "\" found") _
          (by rw [(by decide : S "PASS: Element \"" = S "PASS" ++ S ": Element \"")]; simp)
      · simp at h
  · intro expected ts v
    cases hc : containsSub (strValOrEmpty v) expected
    · have hd : (cmdVerifyUrl (expected :: ts) (.ok v)).data
          = S "FAIL: URL does not contain \"" ++ expected ++ S "\" ("
            ++ strValOrEmpty v ++ S ")" := by
        simp [cmdVerifyUrl, hc]
      have hsuc : (cmdVerifyUrl (expected :: ts) (.ok v)).success = false := by
        simp [cmdVerifyUrl, hc]
      refine ⟨by simp [hsuc], fun h => ?_, fun h => ?_⟩
      · simp at h
      · rw [hd]
        exact isInfix_of_eq_append (S "FAIL")
          (S ": URL does not contain \"" ++ expected ++ S "\" ("
            ++ strValOrEmpty v ++ S ")") _
          (by rw [(by decide :
                S "FAIL: URL does not contain \""
                  = S "FAIL" ++ S ": URL does not contain \"")]
              simp)
    · have hd : (cmdVerifyUrl (expected :: ts) (.ok v)).data
          = S "PASS: URL contains \"" ++ expected ++ S "\" ("
            ++ strValOrEmpty v ++ S ")" := by
        simp [cmdVerifyUrl, hc]
      have hsuc : (cmdVerifyUrl (expected :: ts) (.ok v)).success = true := by
        simp [cmdVerifyUrl, hc]
      refine ⟨by simp [hsuc], fun h => ?_, fun h => ?_⟩
      · rw [hd]
        exact isInfix_of_eq_append (S "PASS")
          (S ": URL contains \"" ++ expected ++ S "\" (" ++ strValOrEmpty v ++ S ")") _
          (by rw [(by decide :
                S "PASS: URL contains \"" = S "PASS" ++ S ": URL contains \"")]
              simp)
      · simp at h
  · intro expected ts v
    cases hc : containsSub (strValOrEmpty v) expected
    · have hd : (cmdVerifyTitle (expected :: ts) (.ok v)).data
          = S "FAIL: Title does not contain \"" ++ expected ++ S "\" (\""
            ++ strValOrEmpty v ++ S "\")" := by
        simp [cmdVerifyTitle, hc]
      have hsuc : (cmdVerifyTitle (expected :: ts) (.ok v)).success = false := by
        simp [cmdVerifyTitle, hc]
      refine ⟨by simp [hsuc], fun h => ?_, fun h => ?_⟩
      · simp at h
      · rw [hd]
        exact isInfix_of_eq_append (S "FAIL")
          (S ": Title does not contain \"" ++ expected ++ S "\" (\""
            ++ strValOrEmpty v ++ S "\")") _
          (by rw [(by decide :
                S "FAIL: Title does not contain \""
                  = S "FAIL" ++ S ": Title does not contain \"")]
              simp)
    · have hd : (cmdVerifyTitle (expected :: ts) (.ok v)).data
          = S "PASS: Title contains \"" ++ expected ++ S "\" (\""
            ++ strValOrEmpty v ++ S "\")" := by
        simp [cmdVerifyTitle, hc]
      have hsuc : (cmdVerifyTitle (expected :: ts) (.ok v)).success = true := by
        simp [cmdVerifyTitle, hc]
      refine ⟨by simp [hsuc], fun h => ?_, fun h => ?_⟩
      · rw [hd]
        exact isInfix_of_eq_append (S "PASS")
          (S ": Title contains \"" ++ expected ++ S "\" (\"" ++ strValOrEmpty v ++ S "\")") _
          (by rw [(by decide :
                S "PASS: Title contains \"" = S "PASS" ++ S ": Title contains \"")]
              simp)
      · simp at h

/-- Claim C6 witness: `verify-text "Missing"` on a page whose evaluation
returned `false` — success is `false` and the data carries `FAIL` and
`not found` (spec Scenario D). -/
theorem c6_verify_witness :
    isTrueVal (.vBool false) = false
  ∧ (cmdVerifyText [S "Missing"] true (.ok (.vBool false))).success = false
  ∧ S "not found" <:+: (cmdVerifyText [S "Missing"] true (.ok (.vBool false))).data :=
  ⟨by decide,
   (c6_verify_false_predicate.2.1 (S "Missing") [] (.vBool false) (by decide)).1,
   (c6_verify_false_predicate.2.1 (S "Missing") [] (.vBool false) (by decide)).2⟩

/-! ## Claim C3 — check/uncheck toggle -/

/-- Claim C3, counterexample to the claim as stated: a checked radio with
requested state `false` differs from the requested state, so `checkElement`
dispatches one click — but clicking a radio leaves it checked, so the final
checked state (`true`) does not equal the requested state (`false`). -/
theorem c3_check_radio_counterexample :
    checkElementAct ⟨S "radio", true⟩ false
      = (⟨S "radio", true⟩, 1, .okChecked true) ∧ (true : Bool) ≠ false := by
  exact ⟨by decide, by decide⟩

/-- Claim C3 (amended): on a resolved checkbox/radio, `checkElement` is a
no-op (zero clicks, element untouched) when the current state equals the
requested one and performs exactly one click otherwise; the final checked
state equals the requested state for checkboxes, and for radios when the
requested state is checked (a checked radio requested unchecked stays
checked). -/
theorem c3_check_toggle_amended (el : ToggleEl) (want : Bool)
    (h : el.typ = S "checkbox" ∨ el.typ = S "radio") :
    (checkElementAct el want).2.1 = (if el.checked = want then 0 else 1)
  ∧ (el.checked = want → checkElementAct el want = (el, 0, .okChecked el.checked))
  ∧ (el.typ = S "checkbox" → ((checkElementAct el want).1).checked = want)
  ∧ (el.typ = S "radio" → want = true → ((checkElementAct el want).1).checked = want) := by
  obtain ⟨typ, checked⟩ := el
  simp only at h
  rcases h with h | h <;> subst h <;> revert checked want <;> decide

/-- Claim C3 witness: checking an unchecked checkbox clicks once and ends
checked. -/
theorem c3_check_witness :
    ((⟨S "checkbox", false⟩ : ToggleEl).typ = S "checkbox"
      ∨ (⟨S "checkbox", false⟩ : ToggleEl).typ = S "radio")
  ∧ ((checkElementAct ⟨S "checkbox", false⟩ true).1).checked = true :=
  ⟨Or.inl (by decide),
   (c3_check_toggle_amended ⟨S "checkbox", false⟩ true (Or.inl (by decide))).2.2.1 (by decide)⟩

/-! ## Claim C1 — snapshot ref click -/

theorem digit_not_ws (c : Char) (h : c.isDigit = true) : isWsChar c = false := by
  cases hw : isWsChar c
  · rfl
  · exfalso
    have : c = ' ' ∨ c = '\t' := by simpa [isWsChar] using hw
    rcases this with h1 | h1 <;> subst h1 <;> exact absurd h (by decide)

theorem digit_not_dq (c : Char) (h : c.isDigit = true) : c ≠ '"' := by
  intro h1; subst h1; exact absurd h (by decide)

theorem digit_not_sq (c : Char) (h : c.isDigit = true) : c ≠ sqChar := by
  intro h1; subst h1; exact absurd h (by decide)

theorem dropWhile_eq_self_of_head (l : Str)
    (h : ∀ c, l.head? = some c → isWsChar c = false) : l.dropWhile isWsChar = l := by
  cases l with
  | nil => rfl
  | cons a t => simp [List.dropWhile_cons, h a rfl]

theorem trim_eq_self (l : Str) (hh : ∀ c, l.head? = some c → isWsChar c = false)
    (hl : ∀ c, l.getLast? = some c → isWsChar c = false) : trim l = l := by
  unfold trim
  rw [dropWhile_eq_self_of_head l hh,
    dropWhile_eq_self_of_head l.reverse
      (fun c hc => hl c (by rwa [List.head?_reverse] at hc)),
    List.reverse_reverse]

/-- Claim C1: for a document with `N` element nodes in document order,
`click e<k>` parses as command `click` with the single arg `e<k>`, and the
page-context ref locator clicks the `k`-th element (1-based) and returns the
success object carrying its lowercased tag name when `1 ≤ k ≤ N`, while
`k > N` yields the not-found error object and nothing is clicked; the text
strategies are never consulted. -/
theorem c1_ref_click (doc : Doc) (ds : Str) (hne : ds ≠ [])
    (hdig : ∀ c ∈ ds, c.isDigit = true) :
    tokenize (S "click " ++ ('e' :: ds)) = [S "click", 'e' :: ds]
  ∧ (∀ h2 : digitsVal ds - 1 < (docElems doc).length, 1 ≤ digitsVal ds →
      clickElement doc ('e' :: ds) none
        = .clicked ((docElems doc).get ⟨digitsVal ds - 1, h2⟩).path
            (toLow ((docElems doc).get ⟨digitsVal ds - 1, h2⟩).tag))
  ∧ ((docElems doc).length < digitsVal ds →
      clickElement doc ('e' :: ds) none
        = .failed (S "Element " ++ ('e' :: ds) ++ S " not found")) := by
  refine ⟨?_, ?_, ?_⟩
  · have htrim : trim (S "click " ++ ('e' :: ds)) = S "click " ++ ('e' :: ds) := by
      refine trim_eq_self _ (fun c hc => ?_) (fun c hc => ?_)
      · have hc' : (S "click " ++ ('e' :: ds)).head? = some 'c' := rfl
        rw [hc] at hc'
        cases hc'; decide
      · rw [List.getLast?_append_cons] at hc
        cases hds : ds with
        | nil => exact absurd hds hne
        | cons d t =>
          subst hds
          rw [List.getLast?_cons_cons] at hc
          have hcm : c ∈ d :: t := by
            obtain ⟨hne2, heq⟩ := List.mem_getLast?_eq_getLast (Option.mem_def.2 hc)
            rw [heq]
            exact List.getLast_mem hne2
          exact digit_not_ws c (hdig c hcm)
    have hs1 : (S "click ").foldl tokStep initTokState
        = ⟨[S "click"], [], false, ' '⟩ := by decide
    have hrun : ('e' :: ds).foldl tokStep (⟨[S "click"], [], false, ' '⟩ : TokState)
        = ⟨[S "click"], 'e' :: ds, false, ' '⟩ := by
      have := tokRun_plain ('e' :: ds) ⟨[S "click"], [], false, ' '⟩ rfl ?_
      · simpa using this
      · intro c hc
        rcases hc with _ | hc
        · exact ⟨by decide, by decide, by decide⟩
        · exact ⟨digit_not_ws c (hdig c (by assumption)),
            digit_not_dq c (hdig c (by assumption)),
            digit_not_sq c (hdig c (by assumption))⟩
    unfold tokenize
    rw [htrim]
    rw [if_neg (by simp), if_neg (by simp [S])]
    rw [List.foldl_append, hs1, hrun]
    simp [tokFinish]
  · intro h2 h1
    simp only [clickElement]
    rw [if_pos (show (decide True && decide (ds ≠ []) && List.all ds Char.isDigit) = true by
      simp [hne, List.all_eq_true.2 hdig])]
    have hnn : (0 : Int) ≤ (digitsVal ds : Int) - 1 := by omega
    have htn : ((digitsVal ds : Int) - 1).toNat = digitsVal ds - 1 := by omega
    simp [clickByRef, if_pos hnn, htn]
    rw [if_pos h1, List.getElem?_eq_getElem h2]
  · intro hlt
    simp only [clickElement]
    rw [if_pos (show (decide True && decide (ds ≠ []) && List.all ds Char.isDigit) = true by
      simp [hne, List.all_eq_true.2 hdig])]
    have hnn : (0 : Int) ≤ (digitsVal ds : Int) - 1 := by omega
    have htn : ((digitsVal ds : Int) - 1).toNat = digitsVal ds - 1 := by omega
    simp [clickByRef, if_pos hnn, htn]
    rw [if_pos (show 1 ≤ digitsVal ds by omega), List.getElem?_eq_none (by omega)]

/-- Claim C1 witness: on a two-element document, `click e2` clicks the second
element in document order and reports its lowercased tag. -/
theorem c1_ref_click_witness :
    (S "2" : Str) ≠ []
  ∧ tokenize (S "click e2") = [S "click", S "e2"]
  ∧ clickElement [DNode.elem [0] (S "DIV") [], DNode.elem [1] (S "SPAN") []]
      (S "e2") none = .clicked [1] (S "span") := by
  refine ⟨by decide, ?_, ?_⟩
  · exact (c1_ref_click [] (S "2") (by decide) (by decide)).1
  · exact ((c1_ref_click [DNode.elem [0] (S "DIV") [], DNode.elem [1] (S "SPAN") []]
      (S "2") (by decide) (by decide)).2.1 (by decide) (by decide)).trans (by decide)

/-! ## Claim C10 — no empty fill is ever recorded -/

theorem flushFill_no_empty (st : RState) (loc v : Str)
    (hmem : RCmd.fillCmd loc v ∈ (flushFill st).2) : v ≠ [] := by
  unfold flushFill at hmem
  rcases hft : st.fillTarget with _ | t
  · simp [hft] at hmem
  · by_cases hv : st.fillValue = []
    · simp [hft, hv] at hmem
    · simp [hft, hv] at hmem
      obtain ⟨-, rfl⟩ := hmem
      exact hv

theorem timerFire_no_empty (t : Nat) (st : RState) (loc v : Str)
    (hmem : RCmd.fillCmd loc v ∈ (timerFire t st).2) : v ≠ [] := by
  unfold timerFire at hmem
  rcases hd : st.fillDeadline with _ | d
  · simp [hd] at hmem
  · simp only [hd] at hmem
    by_cases hle : d ≤ t
    · rw [if_pos hle] at hmem
      exact flushFill_no_empty st loc v hmem
    · rw [if_neg hle] at hmem; simp at hmem

theorem clickEmit_no_fill (el : RTarget) (loc v : Str) :
    RCmd.fillCmd loc v ∉ clickEmit el := by
  intro hmem
  unfold clickEmit at hmem
  rcases hfc : findCheckbox el with _ | cb <;> simp only [hfc] at hmem <;>
    split_ifs at hmem <;> simp at hmem

theorem handleClick_no_empty (st : RState) (el : RTarget) (loc v : Str)
    (hmem : RCmd.fillCmd loc v ∈ (handleClick st el).2) : v ≠ [] := by
  unfold handleClick at hmem
  by_cases hds : st.fillDeadline.isSome
  · rw [if_pos hds] at hmem
    rcases hff : flushFill st with ⟨st1, out1⟩
    simp only [hff] at hmem
    rcases List.mem_append.1 hmem with h | h
    · exact flushFill_no_empty st loc v (by rw [hff]; exact h)
    · exact absurd h (clickEmit_no_fill el loc v)
  · rw [if_neg hds] at hmem
    simp only [List.nil_append] at hmem
    exact absurd hmem (clickEmit_no_fill el loc v)

theorem handleKeydown_no_empty (st : RState) (key : Str) (loc v : Str)
    (hmem : RCmd.fillCmd loc v ∈ (handleKeydown st key).2) : v ≠ [] := by
  unfold handleKeydown at hmem
  by_cases hk : key ∈ [S "Enter", S "Tab", S "Escape"]
  · rw [if_pos hk] at hmem
    by_cases hds : st.fillDeadline.isSome
    · rw [if_pos hds] at hmem
      rcases hff : flushFill st with ⟨st1, out1⟩
      simp only [hff] at hmem
      rcases List.mem_append.1 hmem with h | h
      · exact flushFill_no_empty st loc v (by rw [hff]; exact h)
      · simp at h
    · rw [if_neg hds] at hmem
      simp at hmem
  · rw [if_neg hk] at hmem
    simp at hmem

theorem changeEmit_no_fill (el : ElCore) (opt : Str) (loc v : Str) :
    RCmd.fillCmd loc v ∉ changeEmit el opt := by
  intro hmem
  unfold changeEmit at hmem
  split at hmem <;> simp at hmem

theorem procEvent_no_empty (st : RState) (t : Nat) (ev : REvent) (loc v : Str)
    (hmem : RCmd.fillCmd loc v ∈ (procEvent st (t, ev)).2) : v ≠ [] := by
  unfold procEvent at hmem
  rcases htf : timerFire t st with ⟨st1, out1⟩
  simp only [htf] at hmem
  cases ev with
  | input el =>
    exact timerFire_no_empty t st loc v (by rw [htf]; exact hmem)
  | click el =>
    rcases hhc : handleClick st1 el with ⟨st2, out2⟩
    simp only [hhc] at hmem
    rcases List.mem_append.1 hmem with h | h
    · exact timerFire_no_empty t st loc v (by rw [htf]; exact h)
    · exact handleClick_no_empty st1 el loc v (by rw [hhc]; exact h)
  | keydown k =>
    rcases hhk : handleKeydown st1 k with ⟨st2, out2⟩
    simp only [hhk] at hmem
    rcases List.mem_append.1 hmem with h | h
    · exact timerFire_no_empty t st loc v (by rw [htf]; exact h)
    · exact handleKeydown_no_empty st1 k loc v (by rw [hhk]; exact h)
  | change el opt =>
    rcases List.mem_append.1 hmem with h | h
    · exact timerFire_no_empty t st loc v (by rw [htf]; exact h)
    · exact absurd h (changeEmit_no_fill el opt loc v)
  | stopRec =>
    by_cases hds : st1.fillDeadline.isSome
    · rw [if_pos hds] at hmem
      rcases hff : flushFill st1 with ⟨st2, out2⟩
      simp only [hff] at hmem
      rcases List.mem_append.1 hmem with h | h
      · exact timerFire_no_empty t st loc v (by rw [htf]; exact h)
      · exact flushFill_no_empty st1 loc v (by rw [hff]; exact h)
    · rw [if_neg hds] at hmem
      rcases List.mem_append.1 hmem with h | h
      · exact timerFire_no_empty t st loc v (by rw [htf]; exact h)
      · simp at h

theorem runRecFrom_no_empty (evs : List (Nat × REvent)) (st : RState) (tEnd : Nat)
    (loc v : Str) (hmem : RCmd.fillCmd loc v ∈ (runRecFrom st evs tEnd).2) : v ≠ [] := by
  induction evs generalizing st with
  | nil => exact timerFire_no_empty tEnd st loc v hmem
  | cons e rest ih =>
    obtain ⟨t, ev⟩ := e
    unfold runRecFrom at hmem
    rcases hpe : procEvent st (t, ev) with ⟨st1, out1⟩
    simp only [hpe] at hmem
    rcases hrr : runRecFrom st1 rest tEnd with ⟨st2, out2⟩
    simp only [hrr] at hmem
    rcases List.mem_append.1 hmem with h | h
    · exact procEvent_no_empty st t ev loc v (by rw [hpe]; exact h)
    · exact ih st1 (by rw [hrr]; exact h)

/-- Claim C10: for every event sequence and observation time, every `fill`
command the recorder emits carries a nonempty value — a pending fill whose
latest value is empty is dropped at every flush point (click, special
key-down, debounce expiry, stop), because they all go through `flushFill`
and its `fillTarget && fillValue` guard. -/
theorem c10_no_empty_fill (events : List (Nat × REvent)) (tEnd : Nat) (loc v : Str)
    (hmem : RCmd.fillCmd loc v ∈ (runRec events tEnd).2) : v ≠ [] :=
  runRecFrom_no_empty events initRState tEnd loc v hmem
/-! ## Claim C5 — fill debounce and flush ordering -/

theorem getLocator_set_value (base : ElCore) (v : Str) :
    getLocator { base with value := v } = getLocator base := rfl

theorem handleInput_text (base : ElCore) (v : Str) (st : RState) (t : Nat)
    (hIT : base.tagName = S "INPUT" ∨ base.tagName = S "TEXTAREA")
    (hcb : base.typeAttr ≠ S "checkbox") (hrad : base.typeAttr ≠ S "radio") :
    handleInput st { base with value := v } t
      = ⟨some (t + 1500), some { base with value := v }, v⟩ := by
  unfold handleInput
  rcases hIT with h | h <;> simp [h, hcb, hrad]

theorem burst_run (base : ElCore)
    (hIT : base.tagName = S "INPUT" ∨ base.tagName = S "TEXTAREA")
    (hcb : base.typeAttr ≠ S "checkbox") (hrad : base.typeAttr ≠ S "radio")
    (tvs : List (Nat × Str)) :
    ∀ (t0 : Nat) (v0 : Str) (T : Nat),
      gapsOk t0 tvs = true →
      (lastTimeVal t0 v0 tvs).1 + 1500 ≤ T →
      runRecFrom ⟨some (t0 + 1500), some { base with value := v0 }, v0⟩
        (tvs.map (fun p => (p.1, REvent.input { base with value := p.2 }))) T
      = (initRState,
         if (lastTimeVal t0 v0 tvs).2 = [] then []
         else [RCmd.fillCmd (getLocator base) (lastTimeVal t0 v0 tvs).2]) := by
  induction tvs with
  | nil =>
    intro t0 v0 T hg hT
    simp only [lastTimeVal] at hT ⊢
    simp only [List.map_nil, runRecFrom]
    unfold timerFire
    simp only
    rw [if_pos hT]
    by_cases hv : v0 = [] <;> simp [flushFill, hv, getLocator_set_value]
  | cons p rest ih =>
    obtain ⟨t1, v1⟩ := p
    intro t0 v0 T hg hT
    have hg1 : t1 < t0 + 1500 ∧ gapsOk t1 rest = true := by
      simpa [gapsOk] using hg
    simp only [lastTimeVal] at hT ⊢
    simp only [List.map_cons, runRecFrom]
    have htf : timerFire t1 (⟨some (t0 + 1500), some { base with value := v0 }, v0⟩ : RState)
        = (⟨some (t0 + 1500), some { base with value := v0 }, v0⟩, []) := by
      unfold timerFire
      simp only
      rw [if_neg (by omega)]
    simp only [procEvent, htf]
    rw [handleInput_text base v1 _ t1 hIT hcb hrad]
    rw [ih t1 v1 T hg1.2 hT]
    simp

/-- Claim C5 (amended): a burst of input events on one text field separated
by less than the 1500 ms debounce window yields exactly one emitted fill
command carrying the value at the last event, *provided that value is
nonempty* (an empty final value yields no fill at all, per the `flushFill`
guard); and a click or special key-down arriving while a fill is pending
(before its deadline) emits the pending fill command strictly before the
click/press command. -/
theorem c5_debounce_amended :
    (∀ (base : ElCore) (t0 : Nat) (v0 : Str) (tvs : List (Nat × Str)) (T : Nat),
      (base.tagName = S "INPUT" ∨ base.tagName = S "TEXTAREA") →
      base.typeAttr ≠ S "checkbox" → base.typeAttr ≠ S "radio" →
      gapsOk t0 tvs = true →
      (lastTimeVal t0 v0 tvs).1 + 1500 ≤ T →
      (lastTimeVal t0 v0 tvs).2 ≠ [] →
      (runRec (burstEvents base t0 v0 tvs) T).2
        = [RCmd.fillCmd (getLocator base) (lastTimeVal t0 v0 tvs).2])
  ∧ (∀ (st : RState) (el : RTarget) (t d : Nat) (ft : ElCore),
      st.fillDeadline = some d → t < d → st.fillTarget = some ft →
      st.fillValue ≠ [] →
      (procEvent st (t, REvent.click el)).2
        = RCmd.fillCmd (getLocator ft) st.fillValue :: clickEmit el)
  ∧ (∀ (st : RState) (key : Str) (t d : Nat) (ft : ElCore),
      key ∈ [S "Enter", S "Tab", S "Escape"] →
      st.fillDeadline = some d → t < d → st.fillTarget = some ft →
      st.fillValue ≠ [] →
      (procEvent st (t, REvent.keydown key)).2
        = [RCmd.fillCmd (getLocator ft) st.fillValue, RCmd.pressCmd key]) := by
  refine ⟨?_, ?_, ?_⟩
  · intro base t0 v0 tvs T hIT hcb hrad hg hT hv
    unfold runRec burstEvents
    simp only [runRecFrom]
    have htf : timerFire t0 initRState = (initRState, []) := by
      unfold timerFire initRState
      simp
    simp only [procEvent, htf]
    rw [handleInput_text base v0 _ t0 hIT hcb hrad]
    rw [burst_run base hIT hcb hrad tvs t0 v0 T hg hT]
    simp [hv]
  · intro st el t d ft hd hlt hft hv
    have htf : timerFire t st = (st, []) := by
      unfold timerFire
      rw [hd]
      simp only
      rw [if_neg (by omega)]
    have hds : st.fillDeadline.isSome := by rw [hd]; rfl
    have hff : flushFill st = (initRState, [RCmd.fillCmd (getLocator ft) st.fillValue]) := by
      unfold flushFill
      rw [hft]
      simp [hv]
    simp only [procEvent, htf]
    unfold handleClick
    rw [if_pos hds, hff]
    simp
  · intro st key t d ft hk hd hlt hft hv
    have htf : timerFire t st = (st, []) := by
      unfold timerFire
      rw [hd]
      simp only
      rw [if_neg (by omega)]
    have hds : st.fillDeadline.isSome := by rw [hd]; rfl
    have hff : flushFill st = (initRState, [RCmd.fillCmd (getLocator ft) st.fillValue]) := by
      unfold flushFill
      rw [hft]
      simp [hv]
    simp only [procEvent, htf]
    unfold handleKeydown
    rw [if_pos hk, if_pos hds, hff]
    simp

/-- Claim C5, counterexample to the claim as stated: two input events 100 ms
apart on one text field, the second clearing the field (empty value); after
the debounce window expires no fill command at all is emitted, not one
carrying the (empty) value of the last event. -/
theorem c5_empty_fill_counterexample :
    (runRec [(0, REvent.input { sampleField with value := S "a" }),
             (100, REvent.input { sampleField with value := [] })] 2000).2 = [] := by
  decide

/-- Claim C5 witness: a three-keystroke burst (gaps 100 ms) emits exactly one
fill with the final value once the window expires, and a click at 300 ms
while a fill is pending emits the fill strictly before the click. -/
theorem c5_debounce_witness :
    (runRec (burstEvents sampleField 0 (S "a") [(100, S "ab"), (200, S "abc")]) 5000).2
      = [RCmd.fillCmd (getLocator sampleField)
          (lastTimeVal 0 (S "a") [(100, S "ab"), (200, S "abc")]).2]
  ∧ (procEvent ⟨some 1500, some sampleField, S "a"⟩ (300, REvent.click sampleButton)).2
      = RCmd.fillCmd (getLocator sampleField) (S "a") :: clickEmit sampleButton :=
  ⟨c5_debounce_amended.1 sampleField 0 (S "a") [(100, S "ab"), (200, S "abc")] 5000
      (Or.inl (by decide)) (by decide) (by decide) (by decide) (by decide) (by decide),
   c5_debounce_amended.2.1 ⟨some 1500, some sampleField, S "a"⟩ sampleButton 300 1500
      sampleField rfl (by decide) rfl (by decide)⟩

/-- Claim C10 witness: a concrete burst whose fill is emitted at the debounce
expiry; the theorem yields that its value is nonempty. -/
theorem c10_no_empty_fill_witness :
    RCmd.fillCmd (getLocator sampleField) (S "a")
        ∈ (runRec [(0, REvent.input { sampleField with value := S "a" })] 2000).2
  ∧ (S "a" : Str) ≠ [] :=
  ⟨by decide,
   c10_no_empty_fill [(0, REvent.input { sampleField with value := S "a" })] 2000
     (getLocator sampleField) (S "a") (by decide)⟩

/-! ## Claim C9 — whole-script export -/

/-- Claim C9, counterexample to the claim as stated: the line `goto`
(missing its required URL) converts to null and is omitted from the export
with no explanatory comment — the output is identical to exporting an empty
buffer, so the input line is omitted silently. -/
theorem c9_export_counterexample :
    exportFromLines [S "goto"] = exportFromLines [] ∧ (S "goto" : Str) ≠ [] :=
  ⟨by decide, by decide⟩

/-- Claim C9 (amended): export wraps the buffer lines in the fixed test
template; a line starting with `#` becomes an indented code comment (first
`#` replaced by `//`); a tokenizable line whose command is outside the
converter table is replaced by an explanatory `// unknown command` code
comment; but a command line whose conversion returns null (missing required
arguments) is omitted silently, as are blank lines. -/
theorem c9_export_amended :
    (∀ cmds : List Str,
      exportFromLines cmds = exportHeader ++ cmds.flatMap exportLine ++ [S "\x7d);"])
  ∧ (∀ cmd : Str, startsWithB (S "#") cmd = true →
      exportLine cmd = [S "  " ++ replaceFirstHash cmd])
  ∧ (∀ (cmd t0 : Str) (args : List Str), tokenize cmd = t0 :: args →
      startsWithB (S "#") cmd = false →
      converterKnown (toLow t0) = false →
      exportLine cmd = [S "  " ++ (S "// unknown command: " ++ cmd)])
  ∧ (∀ cmd : Str, startsWithB (S "#") cmd = false → pwToPlaywright cmd = none →
      exportLine cmd = []) := by
  refine ⟨fun cmds => rfl, ?_, ?_, ?_⟩
  · intro cmd h
    unfold exportLine
    rw [if_pos h]
  · intro cmd t0 args htok hhash hck
    have hpw : pwToPlaywright cmd = some (S "// unknown command: " ++ cmd) := by
      simp only [converterKnown, List.mem_cons, List.not_mem_nil, or_false,
        decide_eq_false_iff_not, not_or] at hck
      obtain ⟨k1, k2, k3, k4, k5, k6, k7, k8, k9, k10, k11, k12, k13, k14,
        k15, k16, k17, k18, k19, k20, k21, k22, k23, k24, k25, k26, k27, k28⟩ := hck
      simp [pwToPlaywright, htok, k1, k2, k3, k4, k5, k6, k7, k8, k9, k10, k11,
        k12, k13, k14, k15, k16, k17, k18, k19, k20, k21, k22, k23, k24, k25,
        k26, k27, k28]
    unfold exportLine
    rw [if_neg (by simp [hhash]), hpw]
  · intro cmd hhash hnull
    unfold exportLine
    rw [if_neg (by simp [hhash]), hnull]

/-- Claim C9 witness: an unknown command becomes an explanatory code comment,
while an argument-less `goto` vanishes from the export. -/
theorem c9_export_witness :
    tokenize (S "bogus thing") = [S "bogus", S "thing"]
  ∧ startsWithB (S "#") (S "bogus thing") = false
  ∧ converterKnown (toLow (S "bogus")) = false
  ∧ exportLine (S "bogus thing") = [S "  " ++ (S "// unknown command: " ++ S "bogus thing")]
  ∧ startsWithB (S "#") (S "goto") = false
  ∧ pwToPlaywright (S "goto") = none
  ∧ exportLine (S "goto") = [] :=
  ⟨by decide, by decide, by decide,
   c9_export_amended.2.2.1 (S "bogus thing") (S "bogus") [S "thing"]
     (by decide) (by decide) (by decide),
   by decide, by decide,
   c9_export_amended.2.2.2 (S "goto") (by decide) (by decide)⟩

/-! ## Claim C4 — Run and Step produce the same pass/fail sequence -/

theorem dropWhile_head_false (p : Char → Bool) (l : Str) (c : Char)
    (h : (l.dropWhile p).head? = some c) : p c = false := by
  induction l with
  | nil => simp at h
  | cons a t ih =>
    by_cases ha : p a
    · rw [List.dropWhile_cons, if_pos ha] at h
      exact ih h
    · rw [List.dropWhile_cons, if_neg ha] at h
      simp at h
      rw [← h]
      exact Bool.eq_false_iff.2 ha

theorem getLast?_of_suffix (s l : Str) (h : s <:+ l) (hne : s ≠ []) :
    s.getLast? = l.getLast? := by
  obtain ⟨t, rfl⟩ := h
  exact (List.getLast?_append_of_ne_nil t hne).symm

theorem trim_idem (l : Str) : trim (trim l) = trim l := by
  apply trim_eq_self
  · intro c hc
    unfold trim at hc
    rw [List.head?_reverse] at hc
    have hne : ((l.dropWhile isWsChar).reverse.dropWhile isWsChar) ≠ [] := by
      intro he
      rw [he] at hc
      simp at hc
    rw [getLast?_of_suffix _ _ (List.dropWhile_suffix isWsChar) hne] at hc
    rw [List.getLast?_reverse] at hc
    exact dropWhile_head_false isWsChar l c hc
  · intro c hc
    unfold trim at hc
    rw [List.getLast?_reverse] at hc
    exact dropWhile_head_false isWsChar (l.dropWhile isWsChar).reverse c hc

theorem execCmdForRun_executable (l : Str) (hl : executableLine l = true)
    (r : ExecRes) (i : Nat) (acc : List (Option Bool)) :
    execCmdForRun l r i acc = acc.set i (some (isPass r)) := by
  unfold executableLine at hl
  rw [Bool.and_eq_true] at hl
  obtain ⟨h1, h2⟩ := hl
  unfold execCmdForRun
  rw [if_neg (by simpa using h1), if_neg (by simpa using h2)]

theorem execCmdForRun_trimmed_executable (l : Str) (hl : executableLine l = true)
    (r : ExecRes) (i : Nat) (acc : List (Option Bool)) :
    execCmdForRun (trim l) r i acc = acc.set i (some (isPass r)) := by
  apply execCmdForRun_executable
  unfold executableLine at hl ⊢
  rwa [trim_idem]

theorem execCmdForRun_not_executable (l : Str) (hl : executableLine l = false)
    (r : ExecRes) (i : Nat) (acc : List (Option Bool)) :
    execCmdForRun l r i acc = acc := by
  unfold executableLine at hl
  unfold execCmdForRun
  by_cases h1 : trim l = []
  · rw [if_pos h1]
  · rw [if_neg h1]
    rw [Bool.and_eq_false_iff] at hl
    rcases hl with h | h
    · exact absurd h (by simpa using h1)
    · rw [if_pos (by simpa using h)]

theorem runLoop_eq_setVals (res : Nat → ExecRes) (ls : List Str) :
    ∀ (i : Nat) (acc : List (Option Bool)),
      runLoop res ls i acc = setVals res (execIdxsFrom i ls) acc := by
  induction ls with
  | nil => intro i acc; rfl
  | cons l rest ih =>
    intro i acc
    by_cases hb : trim l = []
    · have hex : executableLine l = false := by simp [executableLine, hb]
      simp only [runLoop, hb, if_pos]
      rw [ih (i + 1) acc]
      simp [execIdxsFrom, hex]
    · simp only [runLoop]
      rw [if_neg hb]
      rw [ih (i + 1) (execCmdForRun (trim l) (res i) i acc)]
      by_cases hex : executableLine l = true
      · rw [execCmdForRun_trimmed_executable l hex]
        simp [execIdxsFrom, hex, setVals]
      · have hex2 : executableLine l = false := by simpa using hex
        have : execCmdForRun (trim l) (res i) i acc = acc := by
          apply execCmdForRun_not_executable
          unfold executableLine at hex2 ⊢
          rwa [trim_idem]
        rw [this]
        simp [execIdxsFrom, hex2]

theorem runScript_eq_setVals (lines : List Str) (res : Nat → ExecRes) :
    runScript lines res
      = setVals res (execIdxsFrom 0 lines) (List.replicate lines.length none) :=
  runLoop_eq_setVals res lines 0 _

theorem findNextExecGo_eq (ls : List Str) :
    ∀ i, findNextExecGo ls i = (execIdxsFrom i ls).head? := by
  induction ls with
  | nil => intro i; rfl
  | cons l rest ih =>
    intro i
    by_cases hex : executableLine l = true
    · simp [findNextExecGo, execIdxsFrom, hex]
    · have hex2 : executableLine l = false := by simpa using hex
      simp [findNextExecGo, execIdxsFrom, hex2, ih]

theorem execIdxsFrom_decomp (ls : List Str) :
    ∀ (s j : Nat) (J' : List Nat), execIdxsFrom s ls = j :: J' →
      s ≤ j
      ∧ (∃ l, ls.get? (j - s) = some l ∧ executableLine l = true)
      ∧ execIdxsFrom (j + 1) (ls.drop (j + 1 - s)) = J' := by
  induction ls with
  | nil => intro s j J' h; simp [execIdxsFrom] at h
  | cons l rest ih =>
    intro s j J' h
    by_cases hex : executableLine l = true
    · rw [show execIdxsFrom s (l :: rest) = s :: execIdxsFrom (s + 1) rest by
        simp [execIdxsFrom, hex]] at h
      obtain ⟨rfl, rfl⟩ : s = j ∧ execIdxsFrom (s + 1) rest = J' := by
        cases h; exact ⟨rfl, rfl⟩
      refine ⟨le_refl s, ⟨l, by simp, hex⟩, ?_⟩
      rw [show s + 1 - s = 1 by omega]
      simp
    · have hex2 : executableLine l = false := by simpa using hex
      rw [show execIdxsFrom s (l :: rest) = execIdxsFrom (s + 1) rest by
        simp [execIdxsFrom, hex2]] at h
      obtain ⟨hle, ⟨l2, hget, hexec⟩, hrest⟩ := ih (s + 1) j J' h
      refine ⟨by omega, ⟨l2, ?_, hexec⟩, ?_⟩
      · rw [show j - s = (j - (s + 1)) + 1 by omega]
        simpa using hget
      · rw [show j + 1 - s = (j + 1 - (s + 1)) + 1 by omega]
        simpa using hrest

theorem step_iter (lines : List Str) (res : Nat → ExecRes) :
    ∀ (J : List Nat) (s : Nat) (acc : List (Option Bool)),
      execIdxsFrom s (lines.drop s) = J → J ≠ [] →
      (stepOnce lines res)^[J.length] ⟨some s, acc⟩ = ⟨none, setVals res J acc⟩ := by
  intro J
  induction J with
  | nil => intro s acc h hne; exact absurd rfl hne
  | cons j J' ih =>
    intro s acc h hne
    obtain ⟨hle, ⟨l, hget, hexec⟩, hrest⟩ := execIdxsFrom_decomp _ s j J' h
    have hdd : (lines.drop s).drop (j + 1 - s) = lines.drop (j + 1) := by
      rw [List.drop_drop]
      congr 1
      omega
    rw [hdd] at hrest
    have hfind : findNextExec lines s = some j := by
      unfold findNextExec
      rw [findNextExecGo_eq, h]
      rfl
    have hfind2 : findNextExec lines (j + 1) = J'.head? := by
      unfold findNextExec
      rw [findNextExecGo_eq, hrest]
    have hgetj : lines.get? j = some l := by
      rw [← hget, List.get?_drop]
      congr 1
      omega
    have hgetD : lines.getD j [] = l := by
      rw [List.getD_eq_getD_get?, hgetj]
      rfl
    have hstep : stepOnce lines res ⟨some s, acc⟩
        = if J' = [] then ⟨none, acc.set j (some (isPass (res j)))⟩
          else ⟨some (j + 1), acc.set j (some (isPass (res j)))⟩ := by
      unfold stepOnce
      simp only [Option.getD_some, hfind]
      rw [hgetD, execCmdForRun_executable l hexec, hfind2]
      cases J' with
      | nil => simp
      | cons a t => simp
    simp only [List.length_cons]
    rw [Function.iterate_succ_apply, hstep]
    cases hJ' : J' with
    | nil =>
      subst hJ'
      simp [setVals]
    | cons a t =>
      rw [← hJ']
      rw [if_neg (by simp [hJ'])]
      rw [ih (j + 1) (acc.set j (some (isPass (res j)))) hrest (by simp [hJ'])]
      simp [setVals]

theorem stepN_eq_iterate (lines : List Str) (res : Nat → ExecRes) :
    ∀ k, stepN lines res k = (stepOnce lines res)^[k] ⟨none, []⟩ := by
  intro k
  induction k with
  | zero => rfl
  | succ k ih =>
    rw [show stepN lines res (k + 1) = stepOnce lines res (stepN lines res k) from rfl, ih,
      Function.iterate_succ_apply']

/-- Claim C4: running a script buffer to completion and single-stepping it
`L` times (where `L` is its number of executable lines) produce identical
per-line pass/fail sequences for every fixed assignment of per-command
results — Pass for success/info/snapshot/screenshot results, Fail for an
error result, a thrown transport exception or a missing response; blanks and
comments uncounted. -/
theorem c4_run_step_equiv (lines : List Str) (res : Nat → ExecRes) :
    execMarks lines (runScript lines res)
      = execMarks lines ((stepN lines res (countExec lines)).results) := by
  rcases hJ : execIdxsFrom 0 lines with _ | ⟨j, J'⟩
  · unfold execMarks countExec
    rw [hJ]
    simp [stepN]
  · have hdrop0 : execIdxsFrom 0 (lines.drop 0) = j :: J' := by
      rw [List.drop_zero, hJ]
    have hL : countExec lines = J'.length + 1 := by
      unfold countExec
      rw [hJ]
      rfl
    have hinit : stepOnce lines res ⟨none, []⟩
        = stepOnce lines res ⟨some 0, List.replicate lines.length none⟩ := rfl
    have hstep : (stepN lines res (countExec lines)).results
        = setVals res (j :: J') (List.replicate lines.length none) := by
      have hs := step_iter lines res (j :: J') 0 (List.replicate lines.length none)
        hdrop0 (by simp)
      simp only [List.length_cons] at hs
      rw [stepN_eq_iterate, hL, Function.iterate_succ_apply, hinit,
        ← Function.iterate_succ_apply, hs]
    rw [hstep, runScript_eq_setVals, hJ]

/-! ## Claim C7 — scoped click refinement -/

theorem find?_filter_eq {α : Type} (l : List α) (p q : α → Bool) :
    (l.filter p).find? q = l.find? (fun x => p x && q x) := by
  induction l with
  | nil => rfl
  | cons a t ih =>
    by_cases hp : p a
    · by_cases hq : q a <;> simp [List.filter_cons, List.find?_cons, hp, hq, ih]
    · simp [List.filter_cons, List.find?_cons, hp, ih]

/-- Claim C7: the scoped click of `clickElementByText` refines the spec-side
resolver: the container is the *first* element in document order among
`li, tr, [role=listitem], [role=row], article, div` whose trimmed lowercased
text *contains* the scope text (substring containment, not equality); when
one exists, strategies (1)-(6) search only within it, and otherwise the whole
document; the target itself is matched by `matchesStr`, full trimmed
case-insensitive equality. -/
theorem c7_scoped_click (doc : Doc) (text : Str) (scope : Option Str) :
    clickElementByText doc text scope =
      (match specResolveClick doc text scope with
       | some el => ClickOutcome.clicked el.path (toLow el.tag)
       | none => ClickOutcome.failed (S "No element found matching: " ++ text ++
           (match scope with
            | some st => if st = [] then [] else S " in \"" ++ st ++ S "\""
            | none => []))) := by
  cases scope with
  | none =>
    show _ = _
    simp only [clickElementByText, specResolveClick, specSearchBase, specStrategies,
      firstHit, List.foldl_cons, List.foldl_nil, List.filter_true]
  | some st =>
    by_cases hst : st = []
    · subst hst
      simp only [clickElementByText, specResolveClick, specSearchBase, specStrategies,
        firstHit, List.foldl_cons, List.foldl_nil, List.filter_true, if_true]
    · have hcont : ((docElems doc).filter containerSel).find?
          (fun c => containsSub (toLow (trim (textContent doc c))) (toLow st))
          = specContainer doc st := by
        rw [find?_filter_eq]
        rfl
      simp only [clickElementByText, specResolveClick, specSearchBase, specStrategies,
        firstHit, List.foldl_cons, List.foldl_nil, List.filter_true]
      simp only [if_neg hst, hcont]
      cases hc : specContainer doc st with
      | none => rfl
      | some c => rfl

end PW
